import Mathlib

/-! # Pencil: stroke and selection tools

A shallow embedding of the pointer-driven tools of the Pencil animation editor
(`bitmaperasertool.cpp`, `brushtool.cpp`, `selecttool.cpp`, `bitmapmovetool.cpp`,
`bitmappolylinetool.cpp`, `bitmapeyedroppertool.cpp`) and of the brush setting widget
(`brushsettingwidget.cpp`), together with the properties proved about them.

Conventions of the embedding:

* `qreal` values are exact: they are elements of a linearly ordered field `K` with a
  floor function. The value types and the eraser, whose properties speak of segments of
  any length, are written over every such `K`; they are evaluated over the rationals
  (`K = ℚ`), and over the reals (`K = ℝ`) every square root is available. The other
  tools are written over `ℚ`. C++ `int` values are integers (`ℤ`) without wrap-around.
* Calls made on collaborators (`ScribbleArea`, `Editor`, `SelectionManager`) are
  recorded, in order, in a list of `CanvasCall` (paint tools), `SelectionCall`
  (select and move tools) or `PolylineCall` (polyline tool).
* The persistent settings are a `QSettings` value passed to and returned by the
  setters and `loadSettings`.
* `QLineF(p1, p2).length()` is a square root; its value is passed to the handler that
  reads it and tied to the two points by `QLineF.IsLength`. A segment has at most one
  length (`isLength_unique`), and over `ℝ` every segment has one (`isLength_sqrt`).
-/

namespace Pencil

variable {K : Type} [LinearOrderedField K] [FloorRing K]

/-! ## Qt value types -/

/-- Qt `QPointF`: a point with `qreal` coordinates. -/
structure QPointF (K : Type) where
  x : K
  y : K
  deriving DecidableEq

/-- Qt `QPoint`: a point with `int` coordinates. -/
structure QPoint where
  x : ℤ
  y : ℤ
  deriving DecidableEq

/-- Conversion of a real to a C++ `int`: truncation toward zero. -/
def toInt (d : K) : ℤ :=
  if 0 ≤ d then ⌊d⌋ else ⌈d⌉

/-- Qt 5 `qRound(double)`:
`d >= 0.0 ? int(d + 0.5) : int(d - double(int(d-1)) + 0.5) + int(d-1)`. -/
def qRound (d : K) : ℤ :=
  if 0 ≤ d then toInt (d + 1 / 2)
  else toInt (d - ((toInt (d - 1) : ℤ) : K) + 1 / 2) + toInt (d - 1)

/-- C++ division of `int` values: the quotient truncated toward zero. -/
def cDiv (a b : ℤ) : ℤ := Int.tdiv a b

/-- Qt `qMax`: `(a < b) ? b : a`. -/
def qMax (a b : K) : K :=
  if a < b then b else a

namespace QPointF

/-- Qt `operator+` on points. -/
def add (p q : QPointF K) : QPointF K := ⟨p.x + q.x, p.y + q.y⟩

/-- Qt `operator-` on points. -/
def sub (p q : QPointF K) : QPointF K := ⟨p.x - q.x, p.y - q.y⟩

/-- Qt `operator*(qreal, QPointF)`. -/
def smul (c : K) (p : QPointF K) : QPointF K := ⟨c * p.x, c * p.y⟩

/-- Qt `operator/(QPointF, qreal)`. -/
def div (p : QPointF K) (c : K) : QPointF K := ⟨p.x / c, p.y / c⟩

/-- Qt `QPointF::toPoint`: both coordinates rounded with `qRound`. -/
def toPoint (p : QPointF K) : QPoint := ⟨qRound p.x, qRound p.y⟩

end QPointF

/-- Qt `QPoint` seen as a `QPointF` (implicit conversion). -/
def QPoint.toPointF (p : QPoint) : QPointF K := ⟨(p.x : K), (p.y : K)⟩

/-- The value `len` is what `QLineF(p1, p2).length()` returns: the non-negative
square root of `dx*dx + dy*dy`. Over `ℝ` every pair of points has exactly one such
value; over `ℚ` only the pairs whose distance is rational have one. -/
def QLineF.IsLength (p1 p2 : QPointF K) (len : K) : Prop :=
  0 ≤ len ∧ len * len = (p2.x - p1.x) * (p2.x - p1.x) + (p2.y - p1.y) * (p2.y - p1.y)

instance (p1 p2 : QPointF K) (len : K) : Decidable (QLineF.IsLength p1 p2 len) := by
  unfold QLineF.IsLength; infer_instance

/-- Qt `QColor(r, g, b, a)`. -/
structure QColor where
  r : ℤ
  g : ℤ
  b : ℤ
  a : ℤ
  deriving DecidableEq

/-! ## Collaborators -/

/-- Modelled from the spec: `BlitRect` (blitrect.h is absent) accumulates the rounded dab
centres into the dirty rectangle handed to the canvas; it is kept as the sequence of the
arguments of `extend`, oldest first. -/
structure BlitRect where
  points : List QPoint
  deriving DecidableEq

/-- A freshly constructed `BlitRect`. -/
def BlitRect.empty : BlitRect := ⟨[]⟩

/-- `BlitRect::extend(p)`. -/
def BlitRect.extend (r : BlitRect) (p : QPoint) : BlitRect := ⟨r.points ++ [p]⟩

/-- `Layer::LAYER_TYPE`, restricted to the values the tools test for. -/
inductive LayerType where
  | BITMAP
  | VECTOR
  | OTHER
  deriving DecidableEq

/-- Tool properties (`properties.*`) read by the tools. -/
structure Properties (K : Type) where
  width : K
  feather : K
  pressure : Bool
  useFeather : Bool
  useAA : ℤ
  stabilizerLevel : ℤ
  invisibility : Bool
  preserveAlpha : ℤ
  bezier_state : Bool
  deriving DecidableEq

/-- Calls issued by a tool to its collaborators, in the order they are made. -/
inductive CanvasCall (K : Type) where
  | setAllDirty
  | startStroke
  | endStroke
  | toggleThinLines
  | backup
  | strokeToolDrawStroke
  | interpolateStroke
  | setStabilizerLevel (level : ℤ)
  | drawBrush (point : QPointF K) (brushWidth feather : K) (color : QColor) (opacity : K)
      (useFeather : Bool) (useAA : ℤ)
  | paintBitmapBufferRect (rect : BlitRect)
  | refreshBitmap (rect : BlitRect) (rad : ℤ)
  | paintBitmapBuffer
  | clearBitmapBuffer
  | paintVectorStroke
  deriving DecidableEq

/-- One stamp requested from the canvas through `drawBrush`. -/
structure Dab (K : Type) where
  point : QPointF K
  width : K
  feather : K
  opacity : K
  deriving DecidableEq

/-- The dabs among a sequence of calls: one per `drawBrush`, in order. -/
def dabs : List (CanvasCall K) → List (Dab K)
  | [] => []
  | CanvasCall.drawBrush point w f _ o _ _ :: rest => ⟨point, w, f, o⟩ :: dabs rest
  | _ :: rest => dabs rest

/-! ## Eraser tool (`bitmaperasertool.cpp`) -/

/-- Fields of `BitmapEraserTool` that its handlers read or write. -/
structure BitmapEraserTool (K : Type) where
  properties : Properties K
  mCurrentWidth : K
  mCurrentPressure : K
  mLastBrushPoint : QPointF K
  mMouseDownPoint : QPointF K
  deriving DecidableEq

namespace BitmapEraserTool

/-- The colour every eraser dab is drawn with. -/
def white : QColor := ⟨255, 255, 255, 255⟩

/-- Opacity computed at the top of `paintAt` and `drawStroke`;
`pressure` is `strokeManager()->getPressure()`. -/
def dabOpacity (t : BitmapEraserTool K) (pressure : K) : K :=
  if t.properties.pressure then pressure else 1

/-- Value of `mCurrentWidth` computed at the top of `paintAt` and `drawStroke`. -/
def dabWidth (t : BitmapEraserTool K) (pressure : K) : K :=
  if t.properties.pressure then
    (t.properties.width + pressure * t.properties.width) * (1 / 2)
  else t.properties.width

/-- `BitmapEraserTool::pointerPressEvent`; `cur` is `getCurrentPoint()`. -/
def pointerPressEvent (t : BitmapEraserTool K) (cur : QPointF K) :
    BitmapEraserTool K × List (CanvasCall K) :=
  ({ t with mLastBrushPoint := cur, mMouseDownPoint := cur },
   [CanvasCall.setAllDirty, CanvasCall.startStroke])

/-- `BitmapEraserTool::paintAt`: a single dab at `point`. -/
def paintAt (t : BitmapEraserTool K) (point : QPointF K) (pressure : K) :
    BitmapEraserTool K × List (CanvasCall K) :=
  let opacity := dabOpacity t pressure
  let brushWidth := dabWidth t pressure
  let rect := BlitRect.empty.extend point.toPoint
  let rad := cDiv (qRound brushWidth) 2 + 2
  ({ t with mCurrentWidth := brushWidth },
   [CanvasCall.drawBrush point brushWidth t.properties.feather white opacity
      t.properties.useFeather t.properties.useAA,
    CanvasCall.paintBitmapBufferRect rect,
    CanvasCall.refreshBitmap rect rad])

/-- `brushStep` of `drawStroke` for a dab of width `brushWidth`. -/
def brushStep (feather brushWidth : K) : K :=
  qMax 1 ((1 / 2) * brushWidth - (feather / 100) * brushWidth * (1 / 2))

/-- `steps` of `drawStroke`: `int steps = qRound(distance) / brushStep`. -/
def stepCount (distance step : K) : ℤ :=
  toInt ((qRound distance : K) / step)

/-- Variables updated by the loop of `drawStroke`. -/
structure LoopState (K : Type) where
  mLastBrushPoint : QPointF K
  rect : BlitRect
  calls : List (CanvasCall K)
  deriving DecidableEq

/-- The point computed at iteration `i`:
`mLastBrushPoint + (i + 1) * (brushStep) * (b - mLastBrushPoint) / distance`. -/
def dabPoint (last b : QPointF K) (step distance : K) (i : ℕ) : QPointF K :=
  last.add ((QPointF.smul ((((i : ℤ) + 1 : ℤ) : K) * step) (b.sub last)).div distance)

/-- Body of the loop of `drawStroke` at iteration `i`. -/
def loopBody (t : BitmapEraserTool K) (b : QPointF K) (brushWidth opacity step distance : K)
    (steps : ℤ) (st : LoopState K) (i : ℕ) : LoopState K :=
  let point := dabPoint st.mLastBrushPoint b step distance i
  { mLastBrushPoint := if (i : ℤ) = steps - 1 then point else st.mLastBrushPoint,
    rect := st.rect.extend point.toPoint,
    calls := st.calls ++
      [CanvasCall.drawBrush point brushWidth t.properties.feather white opacity
        t.properties.useFeather t.properties.useAA] }

/-- The `drawBrush` call made at iteration `i` of a stroke whose loop starts with
`mLastBrushPoint = a`. -/
def strokeCall (t : BitmapEraserTool K) (a b : QPointF K) (brushWidth opacity step distance : K)
    (i : ℕ) : CanvasCall K :=
  CanvasCall.drawBrush (dabPoint a b step distance i) brushWidth t.properties.feather white
    opacity t.properties.useFeather t.properties.useAA

/-- `BitmapEraserTool::drawStroke`; `cur` is `getCurrentPoint()`, `pressure` is
`strokeManager()->getPressure()` and `len` is `QLineF(b, a).length()`.
The loop `for (int i = 0; i < steps; i++)` runs over `i = 0, …, steps - 1`; the
division by `distance` is only evaluated inside the loop. -/
def drawStroke (t : BitmapEraserTool K) (cur : QPointF K) (pressure len : K) :
    BitmapEraserTool K × List (CanvasCall K) :=
  let opacity := dabOpacity t pressure
  let brushWidth := dabWidth t pressure
  let step := brushStep t.properties.feather brushWidth
  let b := cur
  let distance := 4 * len
  let steps := stepCount distance step
  let st := (List.range steps.toNat).foldl
    (loopBody t b brushWidth opacity step distance steps)
    ⟨t.mLastBrushPoint, BlitRect.empty, []⟩
  let rad := cDiv (qRound brushWidth) 2 + 2
  ({ t with mCurrentWidth := brushWidth, mLastBrushPoint := st.mLastBrushPoint },
   [CanvasCall.strokeToolDrawStroke, CanvasCall.interpolateStroke] ++ st.calls ++
   [CanvasCall.paintBitmapBufferRect st.rect, CanvasCall.refreshBitmap st.rect rad])

/-- `BitmapEraserTool::paintStroke`. -/
def paintStroke : List (CanvasCall K) :=
  [CanvasCall.paintBitmapBuffer, CanvasCall.setAllDirty, CanvasCall.clearBitmapBuffer]

/-- `BitmapEraserTool::pointerMoveEvent`; `leftButton` is
`event->buttons() & Qt::LeftButton`, `managerLevel` is
`strokeManager()->getStabilizerLevel()`. -/
def pointerMoveEvent (t : BitmapEraserTool K) (leftButton : Bool) (cur : QPointF K)
    (pressure len : K) (managerLevel : ℤ) : BitmapEraserTool K × List (CanvasCall K) :=
  if leftButton then
    let r := drawStroke { t with mCurrentPressure := pressure } cur pressure len
    (r.1, r.2 ++
      (if t.properties.stabilizerLevel ≠ managerLevel then
        [CanvasCall.setStabilizerLevel t.properties.stabilizerLevel] else []))
  else (t, [])

/-- `BitmapEraserTool::pointerReleaseEvent`; `pressLen` is
`QLineF(getCurrentPoint(), mMouseDownPoint).length()` and `len` is the length read by
`drawStroke`. -/
def pointerReleaseEvent (t : BitmapEraserTool K) (cur : QPointF K) (pressure pressLen len : K) :
    BitmapEraserTool K × List (CanvasCall K) :=
  let distance := pressLen
  let r := if distance < 1 then paintAt t t.mMouseDownPoint pressure
           else drawStroke t cur pressure len
  (r.1, [CanvasCall.backup] ++ r.2 ++ paintStroke ++ [CanvasCall.endStroke])

/-- An eraser with the given width, feather and pressure flag whose last brush point is
`last` and whose press point is `down`. -/
def sample (width feather : ℚ) (pressure : Bool) (last down : QPointF ℚ) : BitmapEraserTool ℚ :=
  ⟨⟨width, feather, pressure, false, 0, 0, false, 0, false⟩, width, 1, last, down⟩

/-- The eraser `sample` with its `qreal` values in the field `K`. -/
def sampleIn (K : Type) [LinearOrderedField K] (width feather : K) (pressure : Bool)
    (last down : QPointF K) : BitmapEraserTool K :=
  ⟨⟨width, feather, pressure, false, 0, 0, false, 0, false⟩, width, 1, last, down⟩

end BitmapEraserTool

/-! ## Brush tool (`brushtool.cpp`) -/

/-- Fields of `BrushTool` that its handlers read or write. -/
structure BrushTool where
  properties : Properties ℚ
  mCurrentWidth : ℚ
  mCurrentPressure : ℚ
  mLastBrushPoint : QPointF ℚ
  mMouseDownPoint : QPointF ℚ
  deriving DecidableEq

namespace BrushTool

/-- Result of `BrushTool::paintAt`: the tool afterwards, the calls made, and the values
the function computes for its dab (`point`, `brushWidth`, `properties.feather`,
`opacity`), present when the layer is a bitmap layer. The `drawBrush` call that would
consume them is commented out in the source, so they do not appear among the calls. -/
structure PaintAtResult where
  tool : BrushTool
  calls : List (CanvasCall ℚ)
  computed : Option (Dab ℚ)
  deriving DecidableEq

/-- `BrushTool::adjustPressureSensitiveProperties`. -/
def adjustPressureSensitiveProperties (t : BrushTool) (pressure : ℚ) (mouseDevice : Bool) :
    BrushTool :=
  if t.properties.pressure && !mouseDevice then
    { t with mCurrentPressure := pressure }
  else
    { t with mCurrentPressure := 1 }

/-- `BrushTool::mousePressEvent`; `cur` is `getCurrentPoint()` and `invisibleLines` is
`mEditor->preference()->isOn(SETTING::INVISIBLE_LINES)`. -/
def mousePressEvent (t : BrushTool) (leftButton : Bool) (cur : QPointF ℚ)
    (invisibleLines : Bool) : BrushTool × List (CanvasCall ℚ) :=
  ({ t with mMouseDownPoint := cur, mLastBrushPoint := cur },
   (if leftButton then [CanvasCall.setAllDirty] else []) ++ [CanvasCall.startStroke] ++
   (if !invisibleLines then [CanvasCall.toggleThinLines] else []))

/-- `BrushTool::paintAt`; `layer` is the type of the current layer. -/
def paintAt (t : BrushTool) (layer : LayerType) (point : QPointF ℚ) : PaintAtResult :=
  if layer = LayerType.BITMAP then
    let opacity : ℚ := if t.properties.pressure then t.mCurrentPressure / 2 else 1
    let brushWidth := t.properties.width
    let rect := BlitRect.empty.extend point.toPoint
    let rad := cDiv (qRound brushWidth) 2 + 2
    { tool := { t with mCurrentWidth := brushWidth },
      calls := [CanvasCall.refreshBitmap rect rad],
      computed := some ⟨point, brushWidth, t.properties.feather, opacity⟩ }
  else
    { tool := t, calls := [], computed := none }

/-- `BrushTool::paintBitmapStroke`. -/
def paintBitmapStroke : List (CanvasCall ℚ) :=
  [CanvasCall.paintBitmapBuffer, CanvasCall.setAllDirty, CanvasCall.clearBitmapBuffer]

/-- `BrushTool::mouseReleaseEvent`; `layerPaintable` is
`mScribbleArea->isLayerPaintable()`, `layer` the type of the current layer and `pressLen`
is `QLineF(getCurrentPoint(), mMouseDownPoint).length()`. The vector commit
`paintVectorStroke` is recorded as one call. -/
def mouseReleaseEvent (t : BrushTool) (leftButton layerPaintable : Bool) (layer : LayerType)
    (pressLen : ℚ) : BrushTool × List (CanvasCall ℚ) :=
  if leftButton then
    let r : BrushTool × List (CanvasCall ℚ) :=
      if layerPaintable then
        if pressLen < 1 then
          ((paintAt t layer t.mMouseDownPoint).tool, (paintAt t layer t.mMouseDownPoint).calls)
        else (t, [])
      else (t, [])
    let commit : List (CanvasCall ℚ) :=
      if layer = LayerType.BITMAP then paintBitmapStroke
      else if layer = LayerType.VECTOR then [CanvasCall.paintVectorStroke]
      else []
    (r.1, [CanvasCall.backup] ++ r.2 ++ commit ++ [CanvasCall.endStroke])
  else (t, [CanvasCall.endStroke])

/-- A brush with the given width, feather and pressure flag, current pressure
`current`, pressed at `down`. -/
def sample (width feather : ℚ) (pressure : Bool) (current : ℚ) (down : QPointF ℚ) : BrushTool :=
  ⟨⟨width, feather, pressure, true, -1, 0, true, 0, false⟩, width, current, down, down⟩

end BrushTool

/-! ## Select tool (`selecttool.cpp`) -/

/-- Qt `QRectF`: top-left corner `(xp, yp)`, width `w` and height `h`. -/
structure QRectF where
  xp : ℚ
  yp : ℚ
  w : ℚ
  h : ℚ
  deriving DecidableEq

namespace QRectF

/-- Qt `QRectF()`: the null rectangle. -/
def null : QRectF := ⟨0, 0, 0, 0⟩

/-- Qt `QRectF::left`. -/
def left (r : QRectF) : ℚ := r.xp

/-- Qt `QRectF::top`. -/
def top (r : QRectF) : ℚ := r.yp

/-- Qt `QRectF::right`. -/
def right (r : QRectF) : ℚ := r.xp + r.w

/-- Qt `QRectF::bottom`. -/
def bottom (r : QRectF) : ℚ := r.yp + r.h

/-- Qt `QRectF::setLeft`: `diff = pos - xp; xp += diff; w -= diff`. -/
def setLeft (r : QRectF) (pos : ℚ) : QRectF :=
  let diff := pos - r.xp
  { r with xp := r.xp + diff, w := r.w - diff }

/-- Qt `QRectF::setRight`: `w = pos - xp`. -/
def setRight (r : QRectF) (pos : ℚ) : QRectF :=
  { r with w := pos - r.xp }

/-- Qt `QRectF::setTop`: `diff = pos - yp; yp += diff; h -= diff`. -/
def setTop (r : QRectF) (pos : ℚ) : QRectF :=
  let diff := pos - r.yp
  { r with yp := r.yp + diff, h := r.h - diff }

/-- Qt `QRectF::setBottom`: `h = pos - yp`. -/
def setBottom (r : QRectF) (pos : ℚ) : QRectF :=
  { r with h := pos - r.yp }

/-- Qt `QRectF::isValid`: `w > 0 && h > 0`. -/
def isValid (r : QRectF) : Bool :=
  decide (0 < r.w) && decide (0 < r.h)

/-- Qt `QRectF::normalized`: a negative width or height is flipped about its edge. -/
def normalized (r : QRectF) : QRectF :=
  let r1 : QRectF := if r.w < 0 then { r with xp := r.xp + r.w, w := -r.w } else r
  if r1.h < 0 then { r1 with yp := r1.yp + r1.h, h := -r1.h } else r1

end QRectF

/-- Modelled from the spec: the move-mode enumeration (movemode.h is absent), with the
values the spec lists: none, the body of the selection, its four corners, and rotation. -/
inductive MoveMode where
  | NONE
  | MIDDLE
  | TOPLEFT
  | TOPRIGHT
  | BOTTOMLEFT
  | BOTTOMRIGHT
  | ROTATION
  deriving DecidableEq

/-- Calls issued by the select and move tools to the selection manager, the editor, the
canvas and the backup manager, in the order they are made. -/
inductive SelectionCall where
  | setTempTransformedSelectionRect (rect : QRectF)
  | setSelection (rect : QRectF)
  | addCurvesToVectorSelection
  | backupSelection
  | backupDeselect
  | backup
  | saveStates
  | deselectAll
  | vectorDeselectAll
  | vectorSelectTemp
  | updatePolygons
  | updateToolCursor
  | updateCurrentFrame
  | update
  | validateMoveMode (point : QPointF ℚ)
  | setMoveMode (mode : MoveMode)
  | adjustSelection (point : QPointF ℚ) (offsetX offsetY rotatedAngle : ℚ) (increment : ℤ)
  | calculateSelectionTransformation
  | updateTransformedSelection
  | paintTransformedSelection
  | applyTransformedSelection
  | cancelTransformedSelection
  | resetSelectionProperties
  | setRotation (angle : ℚ)
  | applySelectionChanges
  | showTransformWarning
  deriving DecidableEq

namespace SelectTool

/-- `SelectTool::manageSelectionOrigin`: the rectangle handed to
`setTempTransformedSelectionRect`. -/
def manageSelectionOrigin (currentPoint originPoint : QPointF ℚ) : QRectF :=
  let mouseX := currentPoint.x
  let mouseY := currentPoint.y
  let selectRect := QRectF.null
  let selectRect :=
    if mouseX ≤ originPoint.x then
      (selectRect.setLeft mouseX).setRight originPoint.x
    else
      (selectRect.setLeft originPoint.x).setRight mouseX
  if mouseY ≤ originPoint.y then
    (selectRect.setTop mouseY).setBottom originPoint.y
  else
    (selectRect.setTop originPoint.y).setBottom mouseY

/-- `SelectTool::keepSelection`; `layer` is `mCurrentLayer->type()`, `temp` is
`myTempTransformedSelectionRect()` and `vectorRect` is
`vectorImage->getSelectionRect()`. -/
def keepSelection (layer : LayerType) (temp vectorRect : QRectF) : List SelectionCall :=
  (if layer = LayerType.BITMAP then
    if !temp.isValid then [SelectionCall.setSelection temp.normalized]
    else [SelectionCall.setSelection temp]
  else if layer = LayerType.VECTOR then
    [SelectionCall.setSelection vectorRect, SelectionCall.addCurvesToVectorSelection]
  else []) ++ [SelectionCall.backupSelection]

/-- The rectangles committed through `setSelection` among a sequence of calls. -/
def committed : List SelectionCall → List QRectF
  | [] => []
  | SelectionCall.setSelection r :: rest => r :: committed rest
  | _ :: rest => committed rest

end SelectTool

/-! ## Select tool: pointer events -/

/-- Qt `QRectF(topLeft, bottomRight)`. -/
def QRectF.ofCorners (topLeft bottomRight : QPointF ℚ) : QRectF :=
  ⟨topLeft.x, topLeft.y, bottomRight.x - topLeft.x, bottomRight.y - topLeft.y⟩

/-- Qt `QRectF::contains(const QPointF &)`. -/
def QRectF.contains (rect : QRectF) (p : QPointF ℚ) : Bool :=
  let l := if rect.w < 0 then rect.xp + rect.w else rect.xp
  let r := if rect.w < 0 then rect.xp else rect.xp + rect.w
  if l = r then false
  else if p.x < l ∨ p.x > r then false
  else
    let t := if rect.h < 0 then rect.yp + rect.h else rect.yp
    let b := if rect.h < 0 then rect.yp else rect.yp + rect.h
    if t = b then false
    else if p.y < t ∨ p.y > b then false
    else true

/-- What the tools read from a `Layer*`: its type and `isPaintable()`. -/
structure Layer where
  type : LayerType
  isPaintable : Bool
  deriving DecidableEq

/-- Everything a select-tool handler reads from its event, the base tool and the selection
manager. `layer` is `mEditor->layers()->currentLayer()` (`none` for `nullptr`);
`somethingSelected` is the answer of `somethingSelected()` on entry and
`somethingSelectedAfterApply` its answer after `applyTransformedSelection()`;
`selectionPointValid` is `isSelectionPointValid()`; `tempRect` is
`myTempTransformedSelectionRect()` and `vectorRect` is `vectorImage->getSelectionRect()`
at the time they are read; `anchorLen` is
`QLineF(mAnchorOriginPoint, getCurrentPoint()).length()`. -/
structure PointerEnv where
  layer : Option Layer
  leftButton : Bool
  lastPoint : QPointF ℚ
  currentPoint : QPointF ℚ
  pressPoint : QPointF ℚ
  somethingSelected : Bool
  somethingSelectedAfterApply : Bool
  selectionPointValid : Bool
  validateMoveMode : QPointF ℚ → MoveMode
  whichAnchorPoint : QPointF ℚ → QPointF ℚ
  tempRect : QRectF
  vectorRect : QRectF
  myRotation : ℚ
  pointerInUse : Bool
  anchorLen : ℚ

/-- Fields of `SelectTool` that its handlers read or write. -/
structure SelectTool where
  mCurrentLayer : Option Layer
  mMoveMode : MoveMode
  mAnchorOriginPoint : QPointF ℚ
  mDeselectSelection : Bool
  mPointOutsideSelection : Bool
  deriving DecidableEq

namespace SelectTool

/-- `SelectTool::maybeDeselect`; `validateMoveMode` is only called when the selection
point is not valid. -/
def maybeDeselect (env : PointerEnv) : Bool :=
  !env.selectionPointValid && decide (env.validateMoveMode env.lastPoint = MoveMode.NONE)

/-- `SelectTool::beginSelection`, entered with `mCurrentLayer = layer`. -/
def beginSelection (t : SelectTool) (layer : Layer) (env : PointerEnv) :
    SelectTool × List SelectionCall :=
  let t := { t with mAnchorOriginPoint := env.lastPoint }
  let t :=
    if env.somethingSelected then
      if maybeDeselect env then { t with mDeselectSelection := true } else t
    else t
  let lastPoint :=
    if layer.type = LayerType.BITMAP then env.lastPoint.toPoint.toPointF else env.lastPoint
  let currentPoint :=
    if layer.type = LayerType.BITMAP then env.currentPoint.toPoint.toPointF
    else env.currentPoint
  let t := if layer.type = LayerType.BITMAP then { t with mAnchorOriginPoint := lastPoint } else t
  let calls :=
    (if env.somethingSelected && !env.selectionPointValid then
      [SelectionCall.validateMoveMode env.lastPoint] else []) ++
    [SelectionCall.saveStates, SelectionCall.calculateSelectionTransformation,
     SelectionCall.paintTransformedSelection, SelectionCall.applyTransformedSelection]
  if env.somethingSelectedAfterApply then
    let t :=
      if !env.tempRect.contains env.currentPoint then { t with mPointOutsideSelection := true }
      else t
    let vec := if layer.type = LayerType.VECTOR then [SelectionCall.vectorDeselectAll] else []
    let t := { t with mAnchorOriginPoint := env.whichAnchorPoint lastPoint }
    let sel :=
      if env.validateMoveMode lastPoint = MoveMode.NONE then
        [SelectionCall.validateMoveMode lastPoint,
         SelectionCall.setSelection (QRectF.ofCorners lastPoint lastPoint)]
      else [SelectionCall.validateMoveMode lastPoint]
    (t, calls ++ vec ++ sel ++ [SelectionCall.update])
  else
    ({ t with mMoveMode := MoveMode.NONE },
     calls ++ [SelectionCall.setSelection ⟨currentPoint.x, currentPoint.y, 1, 1⟩,
       SelectionCall.update])

/-- `SelectTool::pointerPressEvent`. -/
def pointerPressEvent (t : SelectTool) (env : PointerEnv) : SelectTool × List SelectionCall :=
  let t := { t with mCurrentLayer := env.layer }
  match env.layer with
  | none => (t, [])
  | some layer =>
    if !layer.isPaintable then (t, [])
    else if !env.leftButton then (t, [])
    else
      let t := { t with mMoveMode := env.validateMoveMode env.currentPoint }
      let r := beginSelection t layer env
      (r.1, [SelectionCall.validateMoveMode env.currentPoint, SelectionCall.updatePolygons] ++
        r.2)

/-- `SelectTool::controlOffsetOrigin`; the offset is `offsetFromPressPos()`, that is
`getCurrentPoint() - getCurrentPressPoint()`. -/
def controlOffsetOrigin (t : SelectTool) (layer : Layer) (env : PointerEnv)
    (currentPoint anchorPoint : QPointF ℚ) : List SelectionCall :=
  let offset := env.currentPoint.sub env.pressPoint
  if t.mMoveMode ≠ MoveMode.NONE then
    if layer.type = LayerType.BITMAP then
      let offset := offset.toPoint.toPointF
      let currentPoint := env.currentPoint.toPoint.toPointF
      [SelectionCall.adjustSelection currentPoint offset.x offset.y env.myRotation 0]
    else []
  else
    [SelectionCall.setTempTransformedSelectionRect
      (manageSelectionOrigin currentPoint anchorPoint)]

/-- `SelectTool::pointerMoveEvent`. -/
def pointerMoveEvent (t : SelectTool) (env : PointerEnv) : SelectTool × List SelectionCall :=
  let t := { t with mCurrentLayer := env.layer }
  match env.layer with
  | none => (t, [])
  | some layer =>
    if !layer.isPaintable then (t, [])
    else if !env.somethingSelected then (t, [])
    else
      let currentPoint :=
        if layer.type = LayerType.BITMAP then env.currentPoint.toPoint.toPointF
        else env.currentPoint
      let drag :=
        if env.pointerInUse then
          controlOffsetOrigin t layer env currentPoint t.mAnchorOriginPoint ++
            (if layer.type = LayerType.VECTOR then [SelectionCall.vectorSelectTemp] else [])
        else []
      (t, [SelectionCall.updatePolygons, SelectionCall.updateToolCursor] ++ drag ++
        [SelectionCall.updateCurrentFrame])

/-- `SelectTool::pointerReleaseEvent`. -/
def pointerReleaseEvent (t : SelectTool) (env : PointerEnv) : SelectTool × List SelectionCall :=
  let t := { t with mCurrentLayer := env.layer }
  match env.layer with
  | none => (t, [])
  | some layer =>
    if !env.leftButton then (t, [])
    else
      let t := { t with mMoveMode := MoveMode.NONE }
      let small := decide (env.anchorLen < 5)
      let t1 := if small then { t with mDeselectSelection := false } else t
      let calls1 := if small then [SelectionCall.deselectAll] else []
      let calls2 :=
        if t1.mDeselectSelection then
          [SelectionCall.deselectAll, SelectionCall.backupDeselect]
        else keepSelection layer.type env.tempRect env.vectorRect
      ({ t1 with mDeselectSelection := false },
       calls1 ++ calls2 ++ [SelectionCall.updatePolygons, SelectionCall.updateToolCursor,
         SelectionCall.updateCurrentFrame])

/-- An idle select tool with the given move mode and pending-deselect flag. -/
def sampleTool (mode : MoveMode) (deselect : Bool) : SelectTool :=
  ⟨none, mode, ⟨0, 0⟩, deselect, false⟩

/-- A pointer environment on `layer` with the pointer at `current`, pressed at `press`, at
distance `anchorLen` from the anchor, with nothing selected and an empty working
rectangle. -/
def sampleEnv (layer : Option Layer) (leftButton : Bool) (press current : QPointF ℚ)
    (anchorLen : ℚ) : PointerEnv :=
  { layer := layer, leftButton := leftButton, lastPoint := press, currentPoint := current,
    pressPoint := press, somethingSelected := false, somethingSelectedAfterApply := false,
    selectionPointValid := false, validateMoveMode := fun _ => MoveMode.NONE,
    whichAnchorPoint := fun p => p, tempRect := QRectF.null, vectorRect := QRectF.null,
    myRotation := 0, pointerInUse := true, anchorLen := anchorLen }

end SelectTool

/-! ## Move tool (`bitmapmovetool.cpp`) -/

/-- Qt `QMessageBox::Yes`. -/
def QMessageBox.Yes : ℤ := 0x4000

/-- Qt `QMessageBox::No`. -/
def QMessageBox.No : ℤ := 0x10000

/-- Qt `QMessageBox::Cancel`. -/
def QMessageBox.Cancel : ℤ := 0x400000

/-- Fields of `BitmapMoveTool` that its handlers read or write. -/
structure BitmapMoveTool where
  mCurrentLayer : Option Layer
  mRotatedAngle : ℚ
  mRotationIncrement : ℤ
  anchorOriginPoint : QPointF ℚ
  deriving DecidableEq

/-- Outcome of a tool-switch or layer-switch query: the tool afterwards, the calls made and
the returned flag. -/
structure SwitchResult where
  tool : BitmapMoveTool
  calls : List SelectionCall
  allowed : Bool
  deriving DecidableEq

namespace BitmapMoveTool

/-- `BitmapMoveTool::updateTransformation`. -/
def updateTransformation : List SelectionCall :=
  [SelectionCall.updateTransformedSelection, SelectionCall.calculateSelectionTransformation,
   SelectionCall.paintTransformedSelection]

/-- `BitmapMoveTool::pointerReleaseEvent`; `somethingSelected` and `myRotation` are the
answers of the selection manager. -/
def pointerReleaseEvent (t : BitmapMoveTool) (somethingSelected : Bool) (myRotation : ℚ) :
    BitmapMoveTool × List SelectionCall :=
  if !somethingSelected then (t, [])
  else
    ({ t with mRotatedAngle := myRotation },
     updateTransformation ++ [SelectionCall.updatePolygons, SelectionCall.updateToolCursor,
       SelectionCall.updateCurrentFrame])

/-- `BitmapMoveTool::cancelChanges`. -/
def cancelChanges : List SelectionCall :=
  [SelectionCall.cancelTransformedSelection, SelectionCall.resetSelectionProperties,
   SelectionCall.deselectAll]

/-- `BitmapMoveTool::applySelectionChanges`. -/
def applySelectionChanges (t : BitmapMoveTool) : BitmapMoveTool × List SelectionCall :=
  ({ t with mRotatedAngle := 0 },
   [SelectionCall.setRotation 0, SelectionCall.applySelectionChanges])

/-- `BitmapMoveTool::leavingThisTool`. -/
def leavingThisTool (t : BitmapMoveTool) : SwitchResult :=
  ⟨(applySelectionChanges t).1, (applySelectionChanges t).2, true⟩

/-- `BitmapMoveTool::switchingLayer`; `modified` is `transformHasBeenModified()` and
`answer` is the value `showTransformWarning()` returns when it is called. -/
def switchingLayer (t : BitmapMoveTool) (modified : Bool) (answer : ℤ) : SwitchResult :=
  if !modified then ⟨t, [SelectionCall.deselectAll], true⟩
  else
    let returnValue := answer
    if returnValue = QMessageBox.Yes then
      ⟨(applySelectionChanges t).1,
       [SelectionCall.showTransformWarning] ++ (applySelectionChanges t).2 ++
         [SelectionCall.deselectAll], true⟩
    else if returnValue = QMessageBox.No then
      ⟨t, [SelectionCall.showTransformWarning] ++ cancelChanges, true⟩
    else if returnValue = QMessageBox.Cancel then
      ⟨t, [SelectionCall.showTransformWarning], false⟩
    else ⟨t, [SelectionCall.showTransformWarning], true⟩

/-- A move tool in the middle of a rotation by `angle` degrees. -/
def sampleTool (angle : ℚ) : BitmapMoveTool :=
  ⟨some ⟨LayerType.BITMAP, true⟩, angle, 15, ⟨0, 0⟩⟩

end BitmapMoveTool

/-! ## Polyline tool (`bitmappolylinetool.cpp`) -/

/-- Calls issued by the polyline tool to the canvas, the layer and the editor, in the
order they are made. `drawPolyline` carries the points of the path, the end point added
with `lineTo`, the Bezier flag, the pen width and the anti-aliasing mode; `pasteBuffer`
is `bitmapImage->paste(mScribbleArea->mBufferImg)` and `clearBuffer` is
`mScribbleArea->mBufferImg->clear()`. -/
inductive PolylineCall where
  | handleDrawingOnEmptyFrame
  | setAllDirty
  | backup
  | drawPolyline (points : List (QPointF ℚ)) (endPoint : QPointF ℚ) (bezier : Bool) (width : ℚ)
      (useAA : ℤ)
  | pasteBuffer
  | clearBuffer
  | setModified
  | clearBitmapBuffer
  | updateCurrentFrame
  deriving DecidableEq

/-- The keys `BitmapPolylineTool::keyPressEvent` distinguishes. -/
inductive Key where
  | Key_Return
  | Key_Escape
  | other
  deriving DecidableEq

/-- Fields of `BitmapPolylineTool` that its handlers read or write. -/
structure BitmapPolylineTool where
  properties : Properties ℚ
  mPoints : List (QPointF ℚ)
  deriving DecidableEq

namespace BitmapPolylineTool

/-- `BitmapPolylineTool::clearToolData`. -/
def clearToolData (t : BitmapPolylineTool) : BitmapPolylineTool :=
  { t with mPoints := [] }

/-- `BitmapPolylineTool::pointerPressEvent`; `cur` is `getCurrentPoint()`. -/
def pointerPressEvent (t : BitmapPolylineTool) (leftButton : Bool) (cur : QPointF ℚ) :
    BitmapPolylineTool × List PolylineCall :=
  if leftButton then
    ({ t with mPoints := t.mPoints ++ [cur] },
     [PolylineCall.handleDrawingOnEmptyFrame, PolylineCall.setAllDirty])
  else (t, [])

/-- `BitmapPolylineTool::drawPolyline`. -/
def drawPolyline (t : BitmapPolylineTool) (points : List (QPointF ℚ)) (endPoint : QPointF ℚ) :
    List PolylineCall :=
  if points.length > 0 then
    [PolylineCall.drawPolyline points endPoint t.properties.bezier_state t.properties.width
      t.properties.useAA]
  else []

/-- `BitmapPolylineTool::pointerMoveEvent`. -/
def pointerMoveEvent (t : BitmapPolylineTool) (cur : QPointF ℚ) : List PolylineCall :=
  drawPolyline t t.mPoints cur

/-- `BitmapPolylineTool::cancelPolyline`. -/
def cancelPolyline : List PolylineCall :=
  [PolylineCall.clearBitmapBuffer, PolylineCall.updateCurrentFrame]

/-- `BitmapPolylineTool::endPolyline`; `points.last()` has no value on an empty list, in
which case there is no result. -/
def endPolyline (t : BitmapPolylineTool) (points : List (QPointF ℚ)) : Option (List PolylineCall) :=
  match points.getLast? with
  | none => none
  | some last =>
    some (drawPolyline t points last ++
      [PolylineCall.pasteBuffer, PolylineCall.clearBuffer, PolylineCall.setModified])

/-- `BitmapPolylineTool::pointerDoubleClickEvent`; `cur` is `getCurrentPoint()`. -/
def pointerDoubleClickEvent (t : BitmapPolylineTool) (cur : QPointF ℚ) :
    Option (BitmapPolylineTool × List PolylineCall) :=
  let t1 := { t with mPoints := t.mPoints ++ [cur] }
  match endPolyline t1 t1.mPoints with
  | none => none
  | some calls => some (clearToolData t1, [PolylineCall.backup] ++ calls)

/-- `BitmapPolylineTool::keyPressEvent`: the tool afterwards, the calls made and the
returned flag. -/
def keyPressEvent (t : BitmapPolylineTool) (key : Key) :
    Option (BitmapPolylineTool × List PolylineCall × Bool) :=
  match key with
  | Key.Key_Return =>
    if t.mPoints.length > 0 then
      match endPolyline t t.mPoints with
      | none => none
      | some calls => some (clearToolData t, calls, true)
    else some (t, [], false)
  | Key.Key_Escape =>
    if t.mPoints.length > 0 then
      some (clearToolData t, cancelPolyline, true)
    else some (t, [], false)
  | Key.other => some (t, [], false)

/-- The tool after left-button presses at the given points, in order. -/
def clicks (t : BitmapPolylineTool) (ps : List (QPointF ℚ)) : BitmapPolylineTool :=
  ps.foldl (fun acc p => (pointerPressEvent acc true p).1) t

/-- A polyline tool of width 8 holding the given points. -/
def sampleTool (points : List (QPointF ℚ)) : BitmapPolylineTool :=
  ⟨⟨8, -1, false, false, 0, 0, false, 0, false⟩, points⟩

end BitmapPolylineTool

/-! ## Settings store and property setters -/

/-- Qt `QVariant`, restricted to the types the tools store, plus the invalid variant
returned for a missing key. -/
inductive QVariant where
  | invalid
  | double (d : ℚ)
  | bool (b : Bool)
  | int (i : ℤ)
  deriving DecidableEq

namespace QVariant

/-- Qt `QVariant::toDouble`. -/
def toDouble : QVariant → ℚ
  | invalid => 0
  | double d => d
  | bool b => if b then 1 else 0
  | int i => (i : ℚ)

/-- Qt `QVariant::toBool`. -/
def toBool : QVariant → Bool
  | invalid => false
  | double d => decide (d ≠ 0)
  | bool b => b
  | int i => decide (i ≠ 0)

/-- Qt `QVariant::toInt`; a double is rounded. -/
def toInt : QVariant → ℤ
  | invalid => 0
  | double d => qRound d
  | bool b => if b then 1 else 0
  | int i => i

end QVariant

/-- Qt `QSettings(PENCIL2D, PENCIL2D)`: the persistent key-value store. -/
structure QSettings where
  entries : String → Option QVariant

namespace QSettings

/-- Qt `QSettings::setValue` followed by `sync`. -/
def setValue (s : QSettings) (key : String) (v : QVariant) : QSettings :=
  ⟨fun k => if k = key then some v else s.entries k⟩

/-- Qt `QSettings::value(key)`: the invalid variant when the key is absent. -/
def value (s : QSettings) (key : String) : QVariant :=
  (s.entries key).getD QVariant.invalid

/-- Qt `QSettings::value(key, defaultValue)`. -/
def valueOr (s : QSettings) (key : String) (defaultValue : QVariant) : QVariant :=
  (s.entries key).getD defaultValue

/-- A store with no entries. -/
def empty : QSettings := ⟨fun _ => none⟩

end QSettings

/-- Modelled from the spec: the constant `OFF` of the tool headers (absent); no property
proved here depends on its value. -/
def OFF : ℤ := 0

namespace BrushTool

/-- `BrushTool::setWidth`. -/
def setWidth (t : BrushTool) (s : QSettings) (width : ℚ) : BrushTool × QSettings :=
  ({ t with properties := { t.properties with width := width } },
   s.setValue "brushWidth" (QVariant.double width))

/-- `BrushTool::setUseFeather`. -/
def setUseFeather (t : BrushTool) (s : QSettings) (usingFeather : Bool) :
    BrushTool × QSettings :=
  ({ t with properties := { t.properties with useFeather := usingFeather } },
   s.setValue "brushUseFeather" (QVariant.bool usingFeather))

/-- `BrushTool::setFeather`. -/
def setFeather (t : BrushTool) (s : QSettings) (feather : ℚ) : BrushTool × QSettings :=
  ({ t with properties := { t.properties with feather := feather } },
   s.setValue "brushFeather" (QVariant.double feather))

/-- `BrushTool::setInvisibility`. -/
def setInvisibility (t : BrushTool) (s : QSettings) (invisibility : Bool) :
    BrushTool × QSettings :=
  ({ t with properties := { t.properties with invisibility := invisibility } },
   s.setValue "brushInvisibility" (QVariant.bool invisibility))

/-- `BrushTool::setPressure`. -/
def setPressure (t : BrushTool) (s : QSettings) (pressure : Bool) : BrushTool × QSettings :=
  ({ t with properties := { t.properties with pressure := pressure } },
   s.setValue "brushPressure" (QVariant.bool pressure))

/-- `BrushTool::setStabilizerLevel`. -/
def setStabilizerLevel (t : BrushTool) (s : QSettings) (level : ℤ) : BrushTool × QSettings :=
  ({ t with properties := { t.properties with stabilizerLevel := level } },
   s.setValue "brushLineStabilization" (QVariant.int level))

/-- `BrushTool::setAA`. -/
def setAA (t : BrushTool) (s : QSettings) (AA : ℤ) : BrushTool × QSettings :=
  ({ t with properties := { t.properties with useAA := AA } },
   s.setValue "brushAA" (QVariant.int AA))

/-- `BrushTool::loadSettings`. A rational feather is never NaN, so the last test of the
source (`std::isnan(properties.feather)`) is not taken. -/
def loadSettings (t : BrushTool) (s : QSettings) : BrushTool × QSettings :=
  let useFeather := (s.valueOr "brushUseFeather" (QVariant.bool true)).toBool
  let useAA := (s.value "brushAA").toInt
  let props : Properties ℚ :=
    { t.properties with
      width := (s.value "brushWidth").toDouble,
      feather := (s.valueOr "brushFeather" (QVariant.double 15)).toDouble,
      useFeather := useFeather,
      pressure := (s.valueOr "brushPressure" (QVariant.bool false)).toBool,
      invisibility := (s.valueOr "brushInvisibility" (QVariant.bool true)).toBool,
      preserveAlpha := OFF,
      stabilizerLevel := (s.value "brushLineStabilization").toInt,
      useAA := if useFeather = true then -1 else useAA }
  let t1 := { t with properties := props }
  if t1.properties.width ≤ 0 then setWidth t1 s 15 else (t1, s)

/-- The predicate "anti-aliasing is forced off while feathering is in use". -/
def aaForcedOff (t : BrushTool) : Prop :=
  t.properties.useFeather = true → t.properties.useAA = -1

end BrushTool

namespace BitmapEraserTool

/-- `BitmapEraserTool::setWidth`. -/
def setWidth (t : BitmapEraserTool ℚ) (s : QSettings) (width : ℚ) :
    BitmapEraserTool ℚ × QSettings :=
  ({ t with properties := { t.properties with width := width } },
   s.setValue "eraserWidth" (QVariant.double width))

/-- `BitmapEraserTool::setFeather`. -/
def setFeather (t : BitmapEraserTool ℚ) (s : QSettings) (feather : ℚ) :
    BitmapEraserTool ℚ × QSettings :=
  ({ t with properties := { t.properties with feather := feather } },
   s.setValue "eraserFeather" (QVariant.double feather))

/-- `BitmapEraserTool::setPressure`. -/
def setPressure (t : BitmapEraserTool ℚ) (s : QSettings) (pressure : Bool) :
    BitmapEraserTool ℚ × QSettings :=
  ({ t with properties := { t.properties with pressure := pressure } },
   s.setValue "eraserPressure" (QVariant.bool pressure))

/-- `BitmapEraserTool::setStabilizerLevel`. -/
def setStabilizerLevel (t : BitmapEraserTool ℚ) (s : QSettings) (level : ℤ) :
    BitmapEraserTool ℚ × QSettings :=
  ({ t with properties := { t.properties with stabilizerLevel := level } },
   s.setValue "stabilizerLevel" (QVariant.int level))

end BitmapEraserTool

namespace BitmapPolylineTool

/-- `BitmapPolylineTool::setWidth`. -/
def setWidth (t : BitmapPolylineTool) (s : QSettings) (width : ℚ) :
    BitmapPolylineTool × QSettings :=
  ({ t with properties := { t.properties with width := width } },
   s.setValue "polyLineWidth" (QVariant.double width))

/-- `BitmapPolylineTool::setFeather`: the argument is unused. -/
def setFeather (t : BitmapPolylineTool) (_feather : ℚ) : BitmapPolylineTool :=
  { t with properties := { t.properties with feather := -1 } }

/-- `BitmapPolylineTool::setAA`. -/
def setAA (t : BitmapPolylineTool) (s : QSettings) (AA : ℤ) :
    BitmapPolylineTool × QSettings :=
  ({ t with properties := { t.properties with useAA := AA } },
   s.setValue "brushAA" (QVariant.int AA))

end BitmapPolylineTool

/-! ## Move tool: start of an interaction -/

/-- Qt `Qt::ShiftModifier`. -/
def Qt.ShiftModifier : ℕ := 0x02000000

/-- Qt `Qt::ControlModifier`. -/
def Qt.ControlModifier : ℕ := 0x04000000

/-- Qt `Qt::AltModifier`. -/
def Qt.AltModifier : ℕ := 0x08000000

/-- Qt `QRectF::isNull`: `w == 0 && h == 0`. -/
def QRectF.isNull (r : QRectF) : Bool :=
  decide (r.w = 0) && decide (r.h = 0)

/-- Everything `BitmapMoveTool::beginInteraction` reads from the base tool and the selection
manager. `transformedRect` is `myTransformedSelectionRect()`; `outsideSelectionArea` is
`isOutsideSelectionArea(getCurrentPoint())`; `validatedMode` is
`validateMoveMode(getLastPoint())`; `managerMode` is what `getMoveMode()` returns when the
handler has not called `setMoveMode` itself; `differenceAngle` is
`MathUtils::radToDeg(MathUtils::getDifferenceAngle(anchorPoint, curPoint))`. -/
structure MoveEnv where
  lastPoint : QPointF ℚ
  currentPoint : QPointF ℚ
  transformedRect : QRectF
  outsideSelectionArea : Bool
  validatedMode : MoveMode
  managerMode : MoveMode
  differenceAngle : ℚ
  myRotation : ℚ
  deriving DecidableEq

namespace BitmapMoveTool

/-- `BitmapMoveTool::beginInteraction`; `keyMod` is the set of modifier flags held. -/
def beginInteraction (t : BitmapMoveTool) (keyMod : ℕ) (env : MoveEnv) :
    BitmapMoveTool × List SelectionCall :=
  let calls1 := if !env.transformedRect.isNull then [SelectionCall.backup] else []
  let calls2 :=
    if keyMod ≠ Qt.ShiftModifier then
      if env.outsideSelectionArea then
        [SelectionCall.applyTransformedSelection, SelectionCall.deselectAll]
      else []
    else []
  let rotate := decide (env.validatedMode = MoveMode.MIDDLE) &&
    decide (keyMod = Qt.ControlModifier)
  let calls3 := [SelectionCall.validateMoveMode env.lastPoint] ++
    (if rotate then [SelectionCall.setMoveMode MoveMode.ROTATION] else [])
  let mode := if rotate then MoveMode.ROTATION else env.managerMode
  let t1 :=
    if mode = MoveMode.ROTATION then
      { t with mRotatedAngle := env.differenceAngle - env.myRotation }
    else t
  (t1, calls1 ++ calls2 ++ calls3)

/-- `BitmapMoveTool::pointerPressEvent`; `layer` is `mEditor->layers()->currentLayer()`. -/
def pointerPressEvent (t : BitmapMoveTool) (layer : Option Layer) (keyMod : ℕ)
    (env : MoveEnv) : BitmapMoveTool × List SelectionCall :=
  let paintable : Option Layer :=
    match layer with
    | none => none
    | some l => if !l.isPaintable then none else some l
  let t := { t with mCurrentLayer := paintable }
  match paintable with
  | none => (t, [])
  | some _ =>
    let t := { t with anchorOriginPoint := env.lastPoint }
    let r := beginInteraction t keyMod env
    (r.1, [SelectionCall.updatePolygons] ++ r.2)

/-- A press inside a selection that occupies (0,0)-(100,100), the manager reporting the
mode MIDDLE. -/
def sampleEnv : MoveEnv :=
  ⟨⟨50, 50⟩, ⟨50, 50⟩, ⟨0, 0, 100, 100⟩, false, MoveMode.MIDDLE, MoveMode.MIDDLE, 0, 0⟩

end BitmapMoveTool

/-! ## Eyedropper tool (`bitmapeyedroppertool.cpp`) -/

/-- Qt `qAlpha`: `rgb >> 24`, kept to 8 bits. -/
def qAlpha (rgb : ℕ) : ℕ := (rgb >>> 24) &&& 0xff

/-- Qt `qRed`: `(rgb >> 16) & 0xff`. -/
def qRed (rgb : ℕ) : ℕ := (rgb >>> 16) &&& 0xff

/-- Qt `qGreen`: `(rgb >> 8) & 0xff`. -/
def qGreen (rgb : ℕ) : ℕ := (rgb >>> 8) &&& 0xff

/-- Qt `qBlue`: `rgb & 0xff`. -/
def qBlue (rgb : ℕ) : ℕ := rgb &&& 0xff

/-- Qt `qRgba(r, g, b, a)`. -/
def qRgba (r g b a : ℕ) : ℕ :=
  ((a &&& 0xff) <<< 24) ||| ((r &&& 0xff) <<< 16) ||| ((g &&& 0xff) <<< 8) ||| (b &&& 0xff)

/-- Range check of the integer setters of `QColor`: a value outside 0..255 is brought back
to the nearest bound, `qMax(0, qMin(var, 255))`. -/
def QColor.clamp (v : ℤ) : ℤ := max 0 (min v 255)

/-- Qt `QColor::setRgba`. -/
def QColor.ofRgba (rgb : ℕ) : QColor :=
  ⟨(qRed rgb : ℤ), (qGreen rgb : ℤ), (qBlue rgb : ℤ), (qAlpha rgb : ℤ)⟩

/-- Qt `QColor::setRed`. -/
def QColor.setRed (c : QColor) (red : ℤ) : QColor := { c with r := QColor.clamp red }

/-- Qt `QColor::setGreen`. -/
def QColor.setGreen (c : QColor) (green : ℤ) : QColor := { c with g := QColor.clamp green }

/-- Qt `QColor::setBlue`. -/
def QColor.setBlue (c : QColor) (blue : ℤ) : QColor := { c with b := QColor.clamp blue }

/-- Calls issued by the eyedropper tool: `setColor` on the colour manager, and the two
cursors it hands to the canvas. -/
inductive EyedropperCall where
  | setColor (colour : QColor)
  | setCursorColour (colour : QColor)
  | setCursorDefault
  deriving DecidableEq

namespace BitmapEyedropperTool

/-- The colour both handlers build from a picked pixel: `setRgba`, then
`transp = 255 - alpha` added to red, green and blue. -/
def pickedColour (pixel : ℕ) : QColor :=
  let c := QColor.ofRgba pixel
  let transp : ℤ := 255 - c.a
  let c := c.setRed (c.r + transp)
  let c := c.setGreen (c.g + transp)
  c.setBlue (c.b + transp)

/-- `BitmapEyedropperTool::updateFrontColor`; `layer` is the current layer and `pixel` is
`targetImage->pixel(getLastPoint().x(), getLastPoint().y())`. -/
def updateFrontColor (layer : Option Layer) (pixel : ℕ) : List EyedropperCall :=
  match layer with
  | none => []
  | some _ =>
    if (pickedColour pixel).a ≠ 0 then [EyedropperCall.setColor (pickedColour pixel)]
    else []

/-- `BitmapEyedropperTool::pointerMoveEvent`; `inside` is
`targetImage->contains(getCurrentPoint())` and `pixel` the pixel under the pointer. -/
def pointerMoveEvent (layer : Option Layer) (inside : Bool) (pixel : ℕ) :
    List EyedropperCall :=
  match layer with
  | none => []
  | some _ =>
    if inside then
      if (pickedColour pixel).a ≠ 0 then [EyedropperCall.setCursorColour (pickedColour pixel)]
      else [EyedropperCall.setCursorDefault]
    else [EyedropperCall.setCursorDefault]

/-- `BitmapEyedropperTool::pointerReleaseEvent`. -/
def pointerReleaseEvent (leftButton : Bool) (layer : Option Layer) (pixel : ℕ) :
    List EyedropperCall :=
  if leftButton then updateFrontColor layer pixel ++ [EyedropperCall.setCursorDefault]
  else []

end BitmapEyedropperTool

/-! ## Brush setting widget (`brushsettingwidget.cpp`) -/

/-- The two helpers of `mathutils.h` (absent) that the widget calls, taken as parameters:
`normalize(x, min, max)` and `mapFromNormalized(x, min, max)`. -/
structure MathUtils where
  normalize : ℚ → ℚ → ℚ → ℚ
  mapFromNormalized : ℚ → ℚ → ℚ → ℚ

/-- The affine helpers: `normalize` sends `[min, max]` onto `[0, 1]` and
`mapFromNormalized` sends `[0, 1]` onto `[min, max]`. -/
def MathUtils.affine : MathUtils :=
  ⟨fun x lo hi => (x - lo) / (hi - lo), fun x lo hi => x * (hi - lo) + lo⟩

/-- Fields of `BrushSettingWidget`; `slider`, `box` and `visual` hold the value last
passed to `setValue` of `mValueSlider`, `mValueBox` and `mVisualBox`. -/
structure BrushSettingWidget where
  mMin : ℚ
  mMax : ℚ
  mMappedMin : ℚ
  mMappedMax : ℚ
  mCurrentValue : ℚ
  slider : ℚ
  box : ℚ
  visual : ℚ
  deriving DecidableEq

namespace BrushSettingWidget

/-- `BrushSettingWidget::setValue`. -/
def setValue (m : MathUtils) (w : BrushSettingWidget) (value : ℚ) : BrushSettingWidget :=
  let normalize := m.normalize value w.mMin w.mMax
  let mappedValue := m.mapFromNormalized normalize w.mMappedMin w.mMappedMax
  { w with slider := mappedValue, box := mappedValue, visual := value,
           mCurrentValue := value }

/-- `BrushSettingWidget::setValueInternal`. -/
def setValueInternal (m : MathUtils) (w : BrushSettingWidget) (value : ℚ) :
    BrushSettingWidget :=
  let normalize := m.normalize value w.mMappedMin w.mMappedMax
  let mappedToOrig := m.mapFromNormalized normalize w.mMin w.mMax
  { w with slider := value, box := value, visual := mappedToOrig, mCurrentValue := value }

/-- `BrushSettingWidget::setRange`. -/
def setRange (m : MathUtils) (w : BrushSettingWidget) (min max : ℚ) : BrushSettingWidget :=
  setValue m { w with mMin := min, mMax := max } w.mCurrentValue

/-- `BrushSettingWidget::updateSetting`: the widget afterwards and the value emitted with
`brushSettingChanged`. -/
def updateSetting (m : MathUtils) (w : BrushSettingWidget) (value : ℚ) :
    BrushSettingWidget × ℚ :=
  let normalize := m.normalize value w.mMappedMin w.mMappedMax
  let mappedToOrig := m.mapFromNormalized normalize w.mMin w.mMax
  (setValueInternal m w value, mappedToOrig)

/-- A widget built with the range `[mappedMin, mappedMax]` (the constructor stores it as
the mapped range) whose original range was then set to `[min, max]`, showing `value`. -/
def sampleWidget (min max mappedMin mappedMax value : ℚ) : BrushSettingWidget :=
  setValue MathUtils.affine ⟨min, max, mappedMin, mappedMax, value, 0, 0, 0⟩ value

end BrushSettingWidget

end Pencil
namespace Pencil

variable {K : Type} [LinearOrderedField K] [FloorRing K]

/-! ## Properties: arithmetic of the conversions -/

theorem toInt_of_nonneg {d : K} (h : 0 ≤ d) : toInt d = ⌊d⌋ := by
  simp [toInt, h]

theorem toInt_of_neg {d : K} (h : d < 0) : toInt d = ⌈d⌉ := by
  simp [toInt, not_le.mpr h]

/-- In exact arithmetic `qRound` rounds to the nearest integer, halves upward. -/
theorem qRound_eq_floor (d : K) : qRound d = ⌊d + 1 / 2⌋ := by
  unfold qRound
  split_ifs with h
  · exact toInt_of_nonneg (by linarith)
  · have hd : d < 0 := not_le.mp h
    have h1 : toInt (d - 1) = ⌈d⌉ - 1 := by
      rw [toInt_of_neg (by linarith)]
      exact Int.ceil_sub_one d
    rw [h1]
    have hc1 : (⌈d⌉ : K) < d + 1 := Int.ceil_lt_add_one d
    have h2 : 0 ≤ d - (((⌈d⌉ - 1 : ℤ)) : K) + 1 / 2 := by
      push_cast; linarith
    rw [toInt_of_nonneg h2]
    have h3 : d - (((⌈d⌉ - 1 : ℤ)) : K) + 1 / 2 = (d + 1 / 2) - ((⌈d⌉ - 1 : ℤ) : K) := by ring
    rw [h3, Int.floor_sub_int]
    ring

theorem qRound_nonneg {d : K} (h : 0 ≤ d) : 0 ≤ qRound d := by
  rw [qRound_eq_floor]
  exact Int.floor_nonneg.mpr (by linarith)

omit [FloorRing K] in
theorem le_qMax_left (a b : K) : a ≤ qMax a b := by
  unfold qMax
  split_ifs with h
  · exact le_of_lt h
  · exact le_refl a

namespace BitmapEraserTool

omit [FloorRing K] in
theorem one_le_brushStep (feather brushWidth : K) : 1 ≤ brushStep feather brushWidth :=
  le_qMax_left 1 _

omit [FloorRing K] in
theorem brushStep_pos (feather brushWidth : K) : 0 < brushStep feather brushWidth :=
  lt_of_lt_of_le one_pos (one_le_brushStep feather brushWidth)

/-- For a non-negative distance and a spacing of at least 1 the step count is the floor
of the rounded distance over the spacing. -/
theorem stepCount_eq_floor {distance step : K} (hd : 0 ≤ distance) (hs : 0 < step) :
    stepCount distance step = ⌊((⌊distance + 1 / 2⌋ : ℤ) : K) / step⌋ := by
  unfold stepCount
  rw [qRound_eq_floor]
  apply toInt_of_nonneg
  apply div_nonneg _ (le_of_lt hs)
  exact_mod_cast Int.floor_nonneg.mpr (by linarith)

theorem stepCount_nonneg {distance step : K} (hd : 0 ≤ distance) (hs : 0 < step) :
    0 ≤ stepCount distance step := by
  rw [stepCount_eq_floor hd hs]
  apply Int.floor_nonneg.mpr
  apply div_nonneg _ (le_of_lt hs)
  exact_mod_cast Int.floor_nonneg.mpr (by linarith)

end BitmapEraserTool

omit [LinearOrderedField K] [FloorRing K] in
theorem dabs_append (xs ys : List (CanvasCall K)) : dabs (xs ++ ys) = dabs xs ++ dabs ys := by
  induction xs with
  | nil => rfl
  | cons c rest ih =>
    cases c <;> simp [dabs, ih]

namespace BitmapEraserTool

/-- Closed form of the loop of `drawStroke` after `k` of its `n` iterations. -/
theorem foldl_loopBody (t : BitmapEraserTool K) (a b : QPointF K)
    (brushWidth opacity step distance : K) (steps : ℤ) (n : ℕ) (hn : steps.toNat = n) :
    ∀ k : ℕ, k ≤ n →
      (List.range k).foldl (loopBody t b brushWidth opacity step distance steps)
        ⟨a, BlitRect.empty, []⟩ =
      ⟨if k = n ∧ 0 < n then dabPoint a b step distance (n - 1) else a,
       ⟨(List.range k).map (fun i => (dabPoint a b step distance i).toPoint)⟩,
       (List.range k).map (strokeCall t a b brushWidth opacity step distance)⟩ := by
  intro k
  induction k with
  | zero =>
    intro _
    have : ¬ (0 = n ∧ 0 < n) := by omega
    simp [this, BlitRect.empty]
  | succ k ih =>
    intro hk
    have hkn : k ≤ n := by omega
    have hne : ¬ (k = n ∧ 0 < n) := by omega
    have hsteps : steps = (n : ℤ) := by omega
    rw [List.range_succ, List.foldl_append, ih hkn]
    simp only [List.foldl_cons, List.foldl_nil, loopBody, hne, if_false, List.map_append,
      List.map_cons, List.map_nil, BlitRect.extend, strokeCall]
    congr 1
    by_cases hlast : k + 1 = n
    · have h1 : ((k : ℤ) = steps - 1) := by omega
      have h2 : k + 1 = n ∧ 0 < n := ⟨hlast, by omega⟩
      have h3 : n - 1 = k := by omega
      simp [h1, h2, h3]
    · have h1 : ¬ ((k : ℤ) = steps - 1) := by omega
      have h2 : ¬ (k + 1 = n ∧ 0 < n) := by omega
      simp [h1, h2]

end BitmapEraserTool
end Pencil
namespace Pencil

variable {K : Type} [LinearOrderedField K] [FloorRing K]
namespace BitmapEraserTool

omit [FloorRing K] in
theorem dabs_map_strokeCall (t : BitmapEraserTool K) (a b : QPointF K)
    (brushWidth opacity step distance : K) (l : List ℕ) :
    dabs (l.map (strokeCall t a b brushWidth opacity step distance)) =
      l.map (fun i => (⟨dabPoint a b step distance i, brushWidth, t.properties.feather,
        opacity⟩ : Dab K)) := by
  induction l with
  | nil => rfl
  | cons i rest ih => simp [dabs, strokeCall, ih]

/-- Number of iterations of the loop of `drawStroke`. -/
theorem drawStroke_dabs (t : BitmapEraserTool K) (cur : QPointF K) (pressure len : K) :
    dabs (drawStroke t cur pressure len).2 =
      (List.range (stepCount (4 * len)
          (brushStep t.properties.feather (dabWidth t pressure))).toNat).map
        (fun i => (⟨dabPoint t.mLastBrushPoint cur
            (brushStep t.properties.feather (dabWidth t pressure)) (4 * len) i,
          dabWidth t pressure, t.properties.feather, dabOpacity t pressure⟩ : Dab K)) := by
  simp only [drawStroke]
  rw [foldl_loopBody t t.mLastBrushPoint cur _ _ _ _ _ _ rfl _ (le_refl _)]
  simp only [dabs_append, dabs_map_strokeCall]
  simp [dabs]

theorem drawStroke_last (t : BitmapEraserTool K) (cur : QPointF K) (pressure len : K) :
    (drawStroke t cur pressure len).1.mLastBrushPoint =
      if 0 < (stepCount (4 * len)
          (brushStep t.properties.feather (dabWidth t pressure))).toNat then
        dabPoint t.mLastBrushPoint cur
          (brushStep t.properties.feather (dabWidth t pressure)) (4 * len)
          ((stepCount (4 * len)
            (brushStep t.properties.feather (dabWidth t pressure))).toNat - 1)
      else t.mLastBrushPoint := by
  simp only [drawStroke]
  rw [foldl_loopBody t t.mLastBrushPoint cur _ _ _ _ _ _ rfl _ (le_refl _)]
  simp

theorem drawStroke_properties (t : BitmapEraserTool K) (cur : QPointF K) (pressure len : K) :
    (drawStroke t cur pressure len).1.properties = t.properties := rfl

theorem drawStroke_count (t : BitmapEraserTool K) (cur : QPointF K) (pressure len : K) :
    (dabs (drawStroke t cur pressure len).2).length =
      (stepCount (4 * len) (brushStep t.properties.feather (dabWidth t pressure))).toNat := by
  rw [drawStroke_dabs]; simp

end BitmapEraserTool
end Pencil
namespace Pencil

variable {K : Type} [LinearOrderedField K] [FloorRing K]
namespace BitmapEraserTool

/-- Evaluation of the step count from bounds on the rounded distance and on the quotient. -/
theorem stepCount_eq_of_bounds {distance step : K} (m n : ℤ) (hd : 0 ≤ distance)
    (hs : 0 < step) (hm1 : (m : K) ≤ distance + 1 / 2) (hm2 : distance + 1 / 2 < m + 1)
    (hn1 : (n : K) * step ≤ m) (hn2 : (m : K) < (n + 1) * step) :
    stepCount distance step = n := by
  rw [stepCount_eq_floor hd hs]
  have hm : ⌊distance + 1 / 2⌋ = m := Int.floor_eq_iff.mpr ⟨hm1, hm2⟩
  rw [hm]
  apply Int.floor_eq_iff.mpr
  constructor
  · rw [le_div_iff₀ hs]; exact hn1
  · rw [div_lt_iff₀ hs]; exact hn2

omit [FloorRing K] in
theorem dabPoint_eq (a b : QPointF K) (step distance : K) (n : ℕ) (hn : 0 < n) :
    dabPoint a b step distance (n - 1) =
      a.add (QPointF.smul ((n : K) * step / distance) (b.sub a)) := by
  have h : (((((n - 1 : ℕ) : ℤ) + 1 : ℤ)) : K) = (n : K) := by
    have : (((n - 1 : ℕ) : ℤ) + 1 : ℤ) = (n : ℤ) := by omega
    rw [this]; simp
  simp only [dabPoint, QPointF.add, QPointF.smul, QPointF.div, QPointF.sub, h]
  congr 1 <;> ring

end BitmapEraserTool
end Pencil
namespace Pencil

variable {K : Type} [LinearOrderedField K] [FloorRing K]
namespace BitmapEraserTool

end BitmapEraserTool
end Pencil
namespace Pencil

variable {K : Type} [LinearOrderedField K] [FloorRing K]

omit [FloorRing K] in
/-- A non-negative number is determined by its square. -/
theorem eq_of_mul_self_eq {u v : K} (hu : 0 ≤ u) (hv : 0 ≤ v) (h : u * u = v * v) : u = v := by
  rcases mul_self_eq_mul_self_iff.mp h with h1 | h1
  · exact h1
  · have : u = 0 := by linarith
    have : v = 0 := by linarith
    linarith

/-- The diagonal of the unit square has length `√2`. -/
theorem isLength_diagonal : QLineF.IsLength (⟨0, 0⟩ : QPointF ℝ) ⟨1, 1⟩ (Real.sqrt 2) := by
  refine ⟨Real.sqrt_nonneg _, ?_⟩
  rw [Real.mul_self_sqrt (by norm_num)]
  norm_num

/-- No rational number is the length of the diagonal of the unit square. -/
theorem not_isLength_diagonal_rat (len : ℚ) :
    ¬ QLineF.IsLength (⟨0, 0⟩ : QPointF ℚ) ⟨1, 1⟩ len := by
  rintro ⟨h0, h⟩
  have h2 : ((len : ℝ)) * (len : ℝ) = 2 := by
    have : len * len = 2 := by rw [h]; norm_num
    exact_mod_cast this
  have hs : Real.sqrt 2 = (len : ℝ) := by
    rw [← h2]
    exact Real.sqrt_mul_self (by exact_mod_cast h0)
  exact irrational_sqrt_two ⟨len, hs.symm⟩

namespace BitmapEraserTool

omit [FloorRing K] in
/-- Length of the part of a segment from its start to the point at parameter `c`. -/
theorem isLength_along {a b : QPointF K} {len c : K} (h : QLineF.IsLength a b len)
    (hc : 0 ≤ c) :
    QLineF.IsLength a (a.add (QPointF.smul c (b.sub a))) (c * len) := by
  refine ⟨mul_nonneg hc h.1, ?_⟩
  simp only [QPointF.add, QPointF.smul, QPointF.sub]
  have : c * len * (c * len) = c * c * (len * len) := by ring
  rw [this, h.2]
  ring

omit [FloorRing K] in
/-- Length of the part of a segment between the points at parameters `c` and `d`. -/
theorem isLength_between {a b : QPointF K} {len c d : K} (h : QLineF.IsLength a b len)
    (hcd : c ≤ d) :
    QLineF.IsLength (a.add (QPointF.smul c (b.sub a))) (a.add (QPointF.smul d (b.sub a)))
      ((d - c) * len) := by
  refine ⟨mul_nonneg (by linarith) h.1, ?_⟩
  simp only [QPointF.add, QPointF.smul, QPointF.sub]
  have : (d - c) * len * ((d - c) * len) = (d - c) * (d - c) * (len * len) := by ring
  rw [this, h.2]
  ring

/-- On the diagonal of the unit square, of length `√2`, a spacing of 1 gives
`qRound(4 * √2) / 1 = 6` steps. -/
theorem stepCount_diagonal : stepCount (4 * Real.sqrt 2) (1 : ℝ) = 6 := by
  have h1 : (11 / 8 : ℝ) ≤ Real.sqrt 2 := Real.le_sqrt_of_sq_le (by norm_num)
  have h2 : Real.sqrt 2 < 13 / 8 := by
    rw [Real.sqrt_lt' (by norm_num)]
    norm_num
  exact stepCount_eq_of_bounds 6 6 (by linarith) (by norm_num) (by push_cast; linarith)
    (by push_cast; linarith) (by norm_num) (by norm_num)

/-- Spacing of the eraser of width 2 without feather or pressure, over the reals. -/
theorem brushStep_sampleIn_real (last down : QPointF ℝ) (pressure : ℝ) :
    brushStep (sampleIn ℝ 2 0 false last down).properties.feather
      (dabWidth (sampleIn ℝ 2 0 false last down) pressure) = 1 := by
  norm_num [brushStep, dabWidth, sampleIn, qMax]

/-- The eraser of width 2 without feather puts 6 dabs on the diagonal of the unit
square. -/
theorem drawStroke_diagonal_count :
    (dabs (drawStroke (sampleIn ℝ 2 0 false ⟨0, 0⟩ ⟨0, 0⟩) ⟨1, 1⟩ 1
      (Real.sqrt 2)).2).length = 6 := by
  rw [drawStroke_count, brushStep_sampleIn_real, stepCount_diagonal]
  rfl

/-- The rounding of the distance and the step count, with the bounds that define them. -/
theorem stepCount_bounds {X S : K} (hX : 0 ≤ X) (hS : 0 < S) :
    ((⌊X + 1 / 2⌋ : ℤ) : K) ≤ X + 1 / 2 ∧ X + 1 / 2 < ((⌊X + 1 / 2⌋ : ℤ) : K) + 1 ∧
    ((stepCount X S : ℤ) : K) * S ≤ ((⌊X + 1 / 2⌋ : ℤ) : K) ∧
    ((⌊X + 1 / 2⌋ : ℤ) : K) < (((stepCount X S : ℤ) : K) + 1) * S := by
  refine ⟨Int.floor_le _, Int.lt_floor_add_one _, ?_, ?_⟩
  · rw [stepCount_eq_floor hX hS, ← le_div_iff₀ hS]
    exact Int.floor_le _
  · rw [stepCount_eq_floor hX hS, ← div_lt_iff₀ hS]
    exact Int.lt_floor_add_one _

/-- Position of `mLastBrushPoint` after a call that emits at least one dab. -/
theorem drawStroke_last_of_pos (t : BitmapEraserTool K) (cur : QPointF K) (pressure len : K)
    (hn : 0 < (stepCount (4 * len)
      (brushStep t.properties.feather (dabWidth t pressure))).toNat) :
    (drawStroke t cur pressure len).1.mLastBrushPoint =
      t.mLastBrushPoint.add (QPointF.smul
        ((((stepCount (4 * len)
            (brushStep t.properties.feather (dabWidth t pressure))).toNat : ℕ) : K) *
          brushStep t.properties.feather (dabWidth t pressure) / (4 * len))
        (cur.sub t.mLastBrushPoint)) := by
  rw [drawStroke_last, if_pos hn, dabPoint_eq _ _ _ _ _ hn]

/-- A call that emits no dab leaves `mLastBrushPoint` where it was. -/
theorem drawStroke_last_of_zero (t : BitmapEraserTool K) (cur : QPointF K) (pressure len : K)
    (hn : (stepCount (4 * len)
      (brushStep t.properties.feather (dabWidth t pressure))).toNat = 0) :
    (drawStroke t cur pressure len).1.mLastBrushPoint = t.mLastBrushPoint := by
  rw [drawStroke_last, if_neg (by omega)]

end BitmapEraserTool
end Pencil
namespace Pencil

variable {K : Type} [LinearOrderedField K] [FloorRing K]
namespace BitmapEraserTool

end BitmapEraserTool
end Pencil
namespace Pencil

variable {K : Type} [LinearOrderedField K] [FloorRing K]
namespace BitmapEraserTool

theorem paintAt_dabs (t : BitmapEraserTool K) (point : QPointF K) (pressure : K) :
    dabs (paintAt t point pressure).2 =
      [⟨point, dabWidth t pressure, t.properties.feather, dabOpacity t pressure⟩] := by
  simp [paintAt, dabs]

/-- C3: with pressure-sensitivity enabled, `paintAt` emits exactly one dab, of width
`(w + p*w)/2` and opacity `p`, every dab emitted by `drawStroke` has that width and
opacity, and both set `mCurrentWidth` to that width; the formula gives `w` at `p = 1` and
`w/2` at `p = 0`. -/
theorem pressure_blending (t : BitmapEraserTool K) (point cur : QPointF K) (p len : K)
    (hp : t.properties.pressure = true) :
    (∃ d : Dab K, dabs (paintAt t point p).2 = [d] ∧
      d.width = (t.properties.width + p * t.properties.width) / 2 ∧ d.opacity = p) ∧
    (paintAt t point p).1.mCurrentWidth = (t.properties.width + p * t.properties.width) / 2 ∧
    (∀ d ∈ dabs (drawStroke t cur p len).2,
      d.width = (t.properties.width + p * t.properties.width) / 2 ∧ d.opacity = p) ∧
    (drawStroke t cur p len).1.mCurrentWidth =
      (t.properties.width + p * t.properties.width) / 2 ∧
    dabWidth t 1 = t.properties.width ∧ dabWidth t 0 = t.properties.width / 2 := by
  have hw : ∀ q : K, dabWidth t q = (t.properties.width + q * t.properties.width) / 2 := by
    intro q
    simp only [dabWidth, hp, if_true]
    ring
  have ho : dabOpacity t p = p := by simp [dabOpacity, hp]
  refine ⟨⟨_, paintAt_dabs t point p, hw p, ho⟩, hw p, ?_, hw p, ?_, ?_⟩
  · intro d hd
    rw [drawStroke_dabs] at hd
    obtain ⟨i, _, rfl⟩ := List.mem_map.mp hd
    exact ⟨hw p, ho⟩
  · rw [hw]; ring
  · rw [hw]; ring

/-- Instance of `pressure_blending` for width 24 at pressure 1/2: the dab is 18 wide. -/
theorem pressure_blending_witness :
    (sample 24 48 true ⟨0, 0⟩ ⟨0, 0⟩).properties.pressure = true ∧
    (paintAt (sample 24 48 true ⟨0, 0⟩ ⟨0, 0⟩) ⟨0, 0⟩ (1 / 2)).1.mCurrentWidth =
      ((sample 24 48 true ⟨0, 0⟩ ⟨0, 0⟩).properties.width +
        1 / 2 * (sample 24 48 true ⟨0, 0⟩ ⟨0, 0⟩).properties.width) / 2 ∧
    ((sample 24 48 true ⟨0, 0⟩ ⟨0, 0⟩).properties.width +
        1 / 2 * (sample 24 48 true ⟨0, 0⟩ ⟨0, 0⟩).properties.width) / 2 = 18 :=
  ⟨rfl,
   (pressure_blending (sample 24 48 true ⟨0, 0⟩ ⟨0, 0⟩) ⟨0, 0⟩ ⟨3, 4⟩ (1 / 2) 5 rfl).2.1,
   by norm_num [sample]⟩

/-- C5: for every width, feather and pressure the spacing `brushStep` used by `drawStroke`
is at least 1, hence non-zero, and for every segment length the step count
`int(qRound(4 * length) / brushStep)` is a non-negative integer. -/
theorem brushStep_ge_one (t : BitmapEraserTool K) (pressure : K) :
    brushStep t.properties.feather (dabWidth t pressure) =
      max 1 ((1 / 2) * dabWidth t pressure -
        (t.properties.feather / 100) * dabWidth t pressure * (1 / 2)) ∧
    1 ≤ brushStep t.properties.feather (dabWidth t pressure) ∧
    brushStep t.properties.feather (dabWidth t pressure) ≠ 0 ∧
    ∀ (cur : QPointF K) (len : K), 0 ≤ len →
      0 ≤ stepCount (4 * len) (brushStep t.properties.feather (dabWidth t pressure)) ∧
      ((dabs (drawStroke t cur pressure len).2).length : ℤ) =
        stepCount (4 * len) (brushStep t.properties.feather (dabWidth t pressure)) := by
  have hs := brushStep_pos t.properties.feather (dabWidth t pressure)
  refine ⟨?_, one_le_brushStep _ _, ne_of_gt hs, ?_⟩
  · unfold brushStep qMax
    split_ifs with h
    · exact (max_eq_right (le_of_lt h)).symm
    · exact (max_eq_left (not_lt.mp h)).symm
  · intro cur len hlen
    have hd : (0 : K) ≤ 4 * len := by linarith
    refine ⟨stepCount_nonneg hd hs, ?_⟩
    rw [drawStroke_count, Int.toNat_of_nonneg (stepCount_nonneg hd hs)]

/-- Instance of `brushStep_ge_one` for the default eraser (width 24, feather 48) over a
segment of length 5. -/
theorem brushStep_ge_one_witness :
    (0 : ℚ) ≤ 5 ∧
    0 ≤ stepCount (4 * 5) (brushStep (sample 24 48 false ⟨0, 0⟩ ⟨0, 0⟩).properties.feather
      (dabWidth (sample 24 48 false ⟨0, 0⟩ ⟨0, 0⟩) 1)) :=
  ⟨by norm_num, ((brushStep_ge_one (sample 24 48 false ⟨0, 0⟩ ⟨0, 0⟩) 1).2.2.2 ⟨3, 4⟩ 5
    (by norm_num)).1⟩

theorem stepCount_zero (step : K) (hs : 0 < step) : stepCount (4 * 0) step = 0 :=
  stepCount_eq_of_bounds 0 0 (by norm_num) hs (by norm_num) (by norm_num) (by norm_num)
    (by push_cast; linarith)

omit [FloorRing K] in
theorem isLength_self {a : QPointF K} {len : K} (h : QLineF.IsLength a a len) : len = 0 :=
  eq_of_mul_self_eq h.1 (le_refl 0) (by rw [h.2]; ring)

/-- C6: when the current point equals the last brush point, so that the segment has length
zero, `drawStroke` emits no dab and leaves `mLastBrushPoint` unchanged, whatever the width,
feather and pressure. -/
theorem drawStroke_zero_length (t : BitmapEraserTool K) (pressure len : K)
    (h : QLineF.IsLength t.mLastBrushPoint t.mLastBrushPoint len) :
    len = 0 ∧
    dabs (drawStroke t t.mLastBrushPoint pressure len).2 = [] ∧
    (drawStroke t t.mLastBrushPoint pressure len).1.mLastBrushPoint = t.mLastBrushPoint := by
  have h0 : len = 0 := isLength_self h
  subst h0
  have hz := stepCount_zero _ (brushStep_pos t.properties.feather (dabWidth t pressure))
  refine ⟨rfl, ?_, ?_⟩
  · rw [drawStroke_dabs, hz]; rfl
  · rw [drawStroke_last_of_zero _ _ _ _ (by rw [hz]; rfl)]

/-- Instance of `drawStroke_zero_length` for the default eraser resting at (3,4). -/
theorem drawStroke_zero_length_witness :
    QLineF.IsLength (sample 24 48 true ⟨3, 4⟩ ⟨0, 0⟩).mLastBrushPoint
      (sample 24 48 true ⟨3, 4⟩ ⟨0, 0⟩).mLastBrushPoint 0 ∧
    dabs (drawStroke (sample 24 48 true ⟨3, 4⟩ ⟨0, 0⟩)
      (sample 24 48 true ⟨3, 4⟩ ⟨0, 0⟩).mLastBrushPoint (1 / 2) 0).2 = [] :=
  ⟨by norm_num [QLineF.IsLength],
   (drawStroke_zero_length (sample 24 48 true ⟨3, 4⟩ ⟨0, 0⟩) (1 / 2) 0
    (by norm_num [QLineF.IsLength])).2.1⟩

end BitmapEraserTool
end Pencil
namespace Pencil

variable {K : Type} [LinearOrderedField K] [FloorRing K]
namespace BitmapEraserTool

omit [LinearOrderedField K] [FloorRing K] in
theorem dabs_paintStroke : dabs (paintStroke : List (CanvasCall K)) = [] := rfl

theorem pointerReleaseEvent_short (t : BitmapEraserTool K) (cur : QPointF K)
    (pressure pressLen len : K) (h : pressLen < 1) :
    (pointerReleaseEvent t cur pressure pressLen len).2 =
      [CanvasCall.backup] ++ (paintAt t t.mMouseDownPoint pressure).2 ++ paintStroke ++
        [CanvasCall.endStroke] := by
  simp [pointerReleaseEvent, h]

theorem pointerReleaseEvent_long (t : BitmapEraserTool K) (cur : QPointF K)
    (pressure pressLen len : K) (h : 1 ≤ pressLen) :
    (pointerReleaseEvent t cur pressure pressLen len).2 =
      [CanvasCall.backup] ++ (drawStroke t cur pressure len).2 ++ paintStroke ++
        [CanvasCall.endStroke] := by
  simp [pointerReleaseEvent, not_lt.mpr h]

omit [LinearOrderedField K] [FloorRing K] in
theorem dabs_release_wrap (l : List (CanvasCall K)) :
    dabs ([CanvasCall.backup] ++ l ++ paintStroke ++ [CanvasCall.endStroke]) = dabs l := by
  simp [dabs_append, dabs, paintStroke]

omit [FloorRing K] in
/-- A dab of the stepped loop is never at the point the loop starts from, when the
segment has positive length. -/
theorem dabPoint_ne_start {a b : QPointF K} {step len : K} (hs : 0 < step) (hl : 0 < len)
    (h : QLineF.IsLength a b len) (i : ℕ) : dabPoint a b step (4 * len) i ≠ a := by
  intro he
  have hc : (0 : K) < ((((i : ℤ) + 1 : ℤ)) : K) * step := by
    apply mul_pos _ hs
    have : (0 : ℤ) < (i : ℤ) + 1 := by omega
    exact_mod_cast this
  have h4 : (0 : K) < 4 * len := by linarith
  simp only [dabPoint, QPointF.add, QPointF.smul, QPointF.div, QPointF.sub] at he
  have hx := congrArg QPointF.x he
  have hy := congrArg QPointF.y he
  simp only at hx hy
  have hx0 : b.x - a.x = 0 := by
    have e : (((((i : ℤ) + 1 : ℤ)) : K) * step) * (b.x - a.x) / (4 * len) = 0 := by linarith
    rcases div_eq_zero_iff.mp e with e1 | e1
    · rcases mul_eq_zero.mp e1 with e2 | e2
      · linarith
      · exact e2
    · linarith
  have hy0 : b.y - a.y = 0 := by
    have e : (((((i : ℤ) + 1 : ℤ)) : K) * step) * (b.y - a.y) / (4 * len) = 0 := by linarith
    rcases div_eq_zero_iff.mp e with e1 | e1
    · rcases mul_eq_zero.mp e1 with e2 | e2
      · linarith
      · exact e2
    · linarith
  have hsq := h.2
  rw [hx0, hy0] at hsq
  have : len * len = 0 := by rw [hsq]; ring
  have : 0 < len * len := mul_pos hl hl
  linarith

/-- C8 (as amended): when press and release are less than 1 unit apart the release
handler emits exactly one dab, located at the press point, and then commits the scratch
buffer; when they are 1 unit or more apart it runs `drawStroke` instead of `paintAt` and
emits exactly the dabs of that loop, none of which is at the press point when
`mLastBrushPoint` is still the press point. The two branches hold for whatever values
the handler reads; the last part is about the lengths `pressLen` and `len` of the two
segments, which over the reals exist for every press and release (`isLength_sqrt`). -/
theorem pointerReleaseEvent_dabs (t : BitmapEraserTool K) (cur : QPointF K)
    (pressure pressLen len : K) :
    (pressLen < 1 →
      (pointerReleaseEvent t cur pressure pressLen len).2 =
        [CanvasCall.backup] ++ (paintAt t t.mMouseDownPoint pressure).2 ++
          [CanvasCall.paintBitmapBuffer, CanvasCall.setAllDirty,
           CanvasCall.clearBitmapBuffer, CanvasCall.endStroke] ∧
      dabs (pointerReleaseEvent t cur pressure pressLen len).2 =
        [⟨t.mMouseDownPoint, dabWidth t pressure, t.properties.feather,
          dabOpacity t pressure⟩]) ∧
    (1 ≤ pressLen →
      (pointerReleaseEvent t cur pressure pressLen len).2 =
        [CanvasCall.backup] ++ (drawStroke t cur pressure len).2 ++
          [CanvasCall.paintBitmapBuffer, CanvasCall.setAllDirty,
           CanvasCall.clearBitmapBuffer, CanvasCall.endStroke] ∧
      dabs (pointerReleaseEvent t cur pressure pressLen len).2 =
        dabs (drawStroke t cur pressure len).2 ∧
      (t.mLastBrushPoint = t.mMouseDownPoint →
        QLineF.IsLength cur t.mMouseDownPoint pressLen →
        QLineF.IsLength t.mLastBrushPoint cur len →
        ∀ d ∈ dabs (pointerReleaseEvent t cur pressure pressLen len).2,
          d.point ≠ t.mMouseDownPoint)) := by
  constructor
  · intro h
    refine ⟨?_, ?_⟩
    · rw [pointerReleaseEvent_short _ _ _ _ _ h]; simp [paintStroke]
    · rw [pointerReleaseEvent_short _ _ _ _ _ h, dabs_release_wrap, paintAt_dabs]
  · intro h
    refine ⟨?_, ?_, ?_⟩
    · rw [pointerReleaseEvent_long _ _ _ _ _ h]; simp [paintStroke]
    · rw [pointerReleaseEvent_long _ _ _ _ _ h, dabs_release_wrap]
    · intro hsame hpress hlen d hd
      rw [pointerReleaseEvent_long _ _ _ _ _ h, dabs_release_wrap, drawStroke_dabs] at hd
      obtain ⟨i, _, rfl⟩ := List.mem_map.mp hd
      have hl : len = pressLen := by
        apply eq_of_mul_self_eq hlen.1 hpress.1
        rw [hlen.2, hpress.2, hsame]
        ring
      have hpos : 0 < len := by linarith
      rw [← hsame]
      exact dabPoint_ne_start (brushStep_pos _ _) hpos hlen i

/-- Instances of `pointerReleaseEvent_dabs`: over the rationals, a press at (0,0)
released at (3/5, 0) puts the single dab at (0,0); over the reals, a press at (0,0)
released at (1,1), at distance `√2`, puts no dab at (0,0). -/
theorem pointerReleaseEvent_dabs_witness :
    (3 : ℚ) / 5 < 1 ∧
    dabs (pointerReleaseEvent (sample 24 48 false ⟨0, 0⟩ ⟨0, 0⟩) ⟨3 / 5, 0⟩ 1 (3 / 5)
      (3 / 5)).2 =
      [⟨(sample 24 48 false ⟨0, 0⟩ ⟨0, 0⟩).mMouseDownPoint,
        dabWidth (sample 24 48 false ⟨0, 0⟩ ⟨0, 0⟩) 1,
        (sample 24 48 false ⟨0, 0⟩ ⟨0, 0⟩).properties.feather,
        dabOpacity (sample 24 48 false ⟨0, 0⟩ ⟨0, 0⟩) 1⟩] ∧
    (1 : ℝ) ≤ Real.sqrt 2 ∧
    (sampleIn ℝ 2 0 false ⟨0, 0⟩ ⟨0, 0⟩).mLastBrushPoint =
      (sampleIn ℝ 2 0 false ⟨0, 0⟩ ⟨0, 0⟩).mMouseDownPoint ∧
    QLineF.IsLength ⟨1, 1⟩ (sampleIn ℝ 2 0 false ⟨0, 0⟩ ⟨0, 0⟩).mMouseDownPoint
      (Real.sqrt 2) ∧
    QLineF.IsLength (sampleIn ℝ 2 0 false ⟨0, 0⟩ ⟨0, 0⟩).mLastBrushPoint ⟨1, 1⟩
      (Real.sqrt 2) ∧
    (∀ d ∈ dabs (pointerReleaseEvent (sampleIn ℝ 2 0 false ⟨0, 0⟩ ⟨0, 0⟩) ⟨1, 1⟩ 1
        (Real.sqrt 2) (Real.sqrt 2)).2,
      d.point ≠ (sampleIn ℝ 2 0 false ⟨0, 0⟩ ⟨0, 0⟩).mMouseDownPoint) := by
  have h1 : (1 : ℝ) ≤ Real.sqrt 2 := Real.le_sqrt_of_sq_le (by norm_num)
  have hlen : QLineF.IsLength (sampleIn ℝ 2 0 false ⟨0, 0⟩ ⟨0, 0⟩).mLastBrushPoint ⟨1, 1⟩
      (Real.sqrt 2) := isLength_diagonal
  have hpress : QLineF.IsLength ⟨1, 1⟩
      (sampleIn ℝ 2 0 false ⟨0, 0⟩ ⟨0, 0⟩).mMouseDownPoint (Real.sqrt 2) := by
    refine ⟨Real.sqrt_nonneg _, ?_⟩
    rw [Real.mul_self_sqrt (by norm_num)]
    norm_num [sampleIn]
  exact ⟨by norm_num,
    ((pointerReleaseEvent_dabs (sample 24 48 false ⟨0, 0⟩ ⟨0, 0⟩) ⟨3 / 5, 0⟩ 1 (3 / 5)
      (3 / 5)).1 (by norm_num)).2,
    h1, rfl, hpress, hlen,
    ((pointerReleaseEvent_dabs (sampleIn ℝ 2 0 false ⟨0, 0⟩ ⟨0, 0⟩) ⟨1, 1⟩ 1
      (Real.sqrt 2) (Real.sqrt 2)).2 h1).2.2 rfl hpress hlen⟩

/-- C8 (counterexample): press at (0,0), drag with the button held to (-3,0), release at
(3,0). The release is 3 units from the press point, `drawStroke` runs from
`mLastBrushPoint = (-3,0)` and its 12th dab is at the press point (0,0). -/
theorem pointerReleaseEvent_dabs_counterexample :
    (pointerMoveEvent (pointerPressEvent (sample 2 0 false ⟨5, 5⟩ ⟨5, 5⟩) ⟨0, 0⟩).1 true
      ⟨-3, 0⟩ 1 3 0).1.mMouseDownPoint = ⟨0, 0⟩ ∧
    (pointerMoveEvent (pointerPressEvent (sample 2 0 false ⟨5, 5⟩ ⟨5, 5⟩) ⟨0, 0⟩).1 true
      ⟨-3, 0⟩ 1 3 0).1.mLastBrushPoint = ⟨-3, 0⟩ ∧
    QLineF.IsLength (pointerPressEvent (sample 2 0 false ⟨5, 5⟩ ⟨5, 5⟩) ⟨0, 0⟩).1.mLastBrushPoint
      ⟨-3, 0⟩ 3 ∧
    QLineF.IsLength ⟨3, 0⟩ (pointerMoveEvent (pointerPressEvent
      (sample 2 0 false ⟨5, 5⟩ ⟨5, 5⟩) ⟨0, 0⟩).1 true ⟨-3, 0⟩ 1 3 0).1.mMouseDownPoint 3 ∧
    QLineF.IsLength (pointerMoveEvent (pointerPressEvent
      (sample 2 0 false ⟨5, 5⟩ ⟨5, 5⟩) ⟨0, 0⟩).1 true ⟨-3, 0⟩ 1 3 0).1.mLastBrushPoint
      ⟨3, 0⟩ 6 ∧
    (1 : ℚ) ≤ 3 ∧
    (⟨⟨0, 0⟩, 2, 0, 1⟩ : Dab ℚ) ∈
      dabs (pointerReleaseEvent (pointerMoveEvent (pointerPressEvent
        (sample 2 0 false ⟨5, 5⟩ ⟨5, 5⟩) ⟨0, 0⟩).1 true ⟨-3, 0⟩ 1 3 0).1 ⟨3, 0⟩ 1 3 6).2 ∧
    ¬ (∀ d ∈ dabs (pointerReleaseEvent (pointerMoveEvent (pointerPressEvent
        (sample 2 0 false ⟨5, 5⟩ ⟨5, 5⟩) ⟨0, 0⟩).1 true ⟨-3, 0⟩ 1 3 0).1 ⟨3, 0⟩ 1 3 6).2,
      d.point ≠ (pointerMoveEvent (pointerPressEvent
        (sample 2 0 false ⟨5, 5⟩ ⟨5, 5⟩) ⟨0, 0⟩).1 true ⟨-3, 0⟩ 1 3 0).1.mMouseDownPoint) := by
  have hmove : (pointerMoveEvent (pointerPressEvent (sample 2 0 false ⟨5, 5⟩ ⟨5, 5⟩)
      ⟨0, 0⟩).1 true ⟨-3, 0⟩ 1 3 0).1 =
      (drawStroke (sample 2 0 false ⟨0, 0⟩ ⟨0, 0⟩) ⟨-3, 0⟩ 1 3).1 := rfl
  have hS : ∀ a : QPointF ℚ, brushStep (sample 2 0 false a ⟨0, 0⟩).properties.feather
      (dabWidth (sample 2 0 false a ⟨0, 0⟩) 1) = 1 := by
    intro a
    norm_num [brushStep, dabWidth, sample, qMax]
  have hn1 : stepCount (4 * 3) (brushStep (sample 2 0 false ⟨0, 0⟩ ⟨0, 0⟩).properties.feather
      (dabWidth (sample 2 0 false ⟨0, 0⟩ ⟨0, 0⟩) 1)) = 12 := by
    rw [hS]
    exact stepCount_eq_of_bounds 12 12 (by norm_num) (by norm_num) (by norm_num)
      (by norm_num) (by norm_num) (by norm_num)
  have e12 : Int.toNat 12 = 12 := rfl
  have hlast : (drawStroke (sample 2 0 false ⟨0, 0⟩ ⟨0, 0⟩) ⟨-3, 0⟩ 1 3).1.mLastBrushPoint =
      ⟨-3, 0⟩ := by
    rw [drawStroke_last_of_pos _ _ _ _ (by rw [hn1]; decide), hn1, hS, e12]
    norm_num [sample, QPointF.add, QPointF.smul, QPointF.sub]
  have hstate : (drawStroke (sample 2 0 false ⟨0, 0⟩ ⟨0, 0⟩) ⟨-3, 0⟩ 1 3).1 =
      sample 2 0 false ⟨-3, 0⟩ ⟨0, 0⟩ := by
    have h1 : (drawStroke (sample 2 0 false ⟨0, 0⟩ ⟨0, 0⟩) ⟨-3, 0⟩ 1 3).1 =
        { sample 2 0 false ⟨0, 0⟩ ⟨0, 0⟩ with
          mCurrentWidth := dabWidth (sample 2 0 false ⟨0, 0⟩ ⟨0, 0⟩) 1,
          mLastBrushPoint :=
            (drawStroke (sample 2 0 false ⟨0, 0⟩ ⟨0, 0⟩) ⟨-3, 0⟩ 1 3).1.mLastBrushPoint } := rfl
    rw [h1, hlast]
    simp [sample, dabWidth]
  have hn2 : stepCount (4 * 6) (brushStep (sample 2 0 false ⟨-3, 0⟩ ⟨0, 0⟩).properties.feather
      (dabWidth (sample 2 0 false ⟨-3, 0⟩ ⟨0, 0⟩) 1)) = 24 := by
    rw [hS]
    exact stepCount_eq_of_bounds 24 24 (by norm_num) (by norm_num) (by norm_num)
      (by norm_num) (by norm_num) (by norm_num)
  have hmem : (⟨⟨0, 0⟩, 2, 0, 1⟩ : Dab ℚ) ∈
      dabs (pointerReleaseEvent (sample 2 0 false ⟨-3, 0⟩ ⟨0, 0⟩) ⟨3, 0⟩ 1 3 6).2 := by
    rw [pointerReleaseEvent_long _ _ _ _ _ (by norm_num), dabs_release_wrap, drawStroke_dabs,
      hn2, hS]
    apply List.mem_map.mpr
    refine ⟨11, ?_, ?_⟩
    · have e24 : Int.toNat 24 = 24 := rfl
      rw [e24]; exact List.mem_range.mpr (by norm_num)
    · norm_num [dabPoint, sample, QPointF.add, QPointF.smul, QPointF.sub, QPointF.div,
        dabWidth, dabOpacity]
  rw [hmove, hstate]
  refine ⟨rfl, rfl, ?_, ?_, ?_, by norm_num, hmem, ?_⟩
  · norm_num [QLineF.IsLength, pointerPressEvent, sample]
  · norm_num [QLineF.IsLength, sample]
  · norm_num [QLineF.IsLength, sample]
  · intro hall
    exact hall _ hmem rfl

end BitmapEraserTool
end Pencil
namespace Pencil
namespace BrushTool

/-- C4 (as amended): whenever pressure-sensitivity is disabled or the input device is a
mouse, `adjustPressureSensitiveProperties` sets the current pressure to 1, and the dab
that `paintAt` then computes on a bitmap layer has the configured base width; its
opacity is 1 when pressure-sensitivity is disabled and 1/2 (the current pressure halved)
when it is enabled. -/
theorem adjustPressure_default (t : BrushTool) (p : ℚ) (mouseDevice : Bool)
    (point : QPointF ℚ) (h : t.properties.pressure = false ∨ mouseDevice = true) :
    (adjustPressureSensitiveProperties t p mouseDevice).mCurrentPressure = 1 ∧
    (paintAt (adjustPressureSensitiveProperties t p mouseDevice) LayerType.BITMAP
      point).computed =
      some ⟨point, t.properties.width, t.properties.feather,
        if t.properties.pressure then 1 / 2 else 1⟩ ∧
    (paintAt (adjustPressureSensitiveProperties t p mouseDevice) LayerType.BITMAP
      point).tool.mCurrentWidth = t.properties.width := by
  have hc : (t.properties.pressure && !mouseDevice) = false := by
    rcases h with h | h <;> simp [h]
  have ha : adjustPressureSensitiveProperties t p mouseDevice =
      { t with mCurrentPressure := 1 } := by
    simp [adjustPressureSensitiveProperties, hc]
  rw [ha]
  refine ⟨rfl, ?_, rfl⟩
  simp only [paintAt, if_true]

/-- Instance of `adjustPressure_default`: pressure-sensitivity off, stylus at pressure
3/10. -/
theorem adjustPressure_default_witness :
    ((sample 15 15 false (3 / 10) ⟨0, 0⟩).properties.pressure = false ∨ false = true) ∧
    (adjustPressureSensitiveProperties (sample 15 15 false (3 / 10) ⟨0, 0⟩) (3 / 10)
      false).mCurrentPressure = 1 :=
  ⟨Or.inl rfl,
   (adjustPressure_default (sample 15 15 false (3 / 10) ⟨0, 0⟩) (3 / 10) false ⟨0, 0⟩
    (Or.inl rfl)).1⟩

/-- C4 (counterexample): with pressure-sensitivity enabled and a mouse reporting pressure
7/10, the current pressure becomes 1 and `paintAt` computes opacity 1/2, not 1. -/
theorem adjustPressure_default_counterexample :
    ((sample 15 15 true (7 / 10) ⟨0, 0⟩).properties.pressure = false ∨ true = true) ∧
    (adjustPressureSensitiveProperties (sample 15 15 true (7 / 10) ⟨0, 0⟩) (7 / 10)
      true).mCurrentPressure = 1 ∧
    (paintAt (adjustPressureSensitiveProperties (sample 15 15 true (7 / 10) ⟨0, 0⟩) (7 / 10)
      true) LayerType.BITMAP ⟨0, 0⟩).computed = some ⟨⟨0, 0⟩, 15, 15, 1 / 2⟩ ∧
    (paintAt (adjustPressureSensitiveProperties (sample 15 15 true (7 / 10) ⟨0, 0⟩) (7 / 10)
      true) LayerType.BITMAP ⟨0, 0⟩).computed ≠ some ⟨⟨0, 0⟩, 15, 15, 1⟩ := by
  have ha : adjustPressureSensitiveProperties (sample 15 15 true (7 / 10) ⟨0, 0⟩) (7 / 10)
      true = sample 15 15 true 1 ⟨0, 0⟩ := by
    simp [adjustPressureSensitiveProperties, sample]
  have hc : (paintAt (sample 15 15 true 1 ⟨0, 0⟩) LayerType.BITMAP ⟨0, 0⟩).computed =
      some ⟨⟨0, 0⟩, 15, 15, 1 / 2⟩ := by
    simp [paintAt, sample]
  rw [ha, hc]
  refine ⟨Or.inr rfl, rfl, rfl, ?_⟩
  intro he
  have := congrArg (fun o => o.map Dab.opacity) he
  norm_num at this

theorem dabs_mouseReleaseEvent (t : BrushTool) (leftButton layerPaintable : Bool)
    (layer : LayerType) (pressLen : ℚ) :
    dabs (mouseReleaseEvent t leftButton layerPaintable layer pressLen).2 = [] := by
  unfold mouseReleaseEvent
  by_cases hb : leftButton = true
  · simp only [hb, if_true]
    by_cases hl : layerPaintable = true <;> by_cases hd : pressLen < 1 <;>
      cases layer <;> simp [hl, hd, paintAt, paintBitmapStroke, dabs]
  · simp [hb, dabs]

/-- C7 (evaluation of the code): a brush of width 15 and feather 15 with pressure disabled,
pressed and released at (10,10) on a paintable bitmap layer. `paintAt` computes the dab
(point (10,10), width 15, opacity 1) and refreshes the canvas around it, but neither the
press nor the release issues a `drawBrush` call: no dab reaches the canvas. -/
theorem single_click_no_dab :
    QLineF.IsLength ⟨10, 10⟩
      (mousePressEvent (sample 15 15 false 1 ⟨0, 0⟩) true ⟨10, 10⟩ true).1.mMouseDownPoint 0 ∧
    (paintAt (mousePressEvent (sample 15 15 false 1 ⟨0, 0⟩) true ⟨10, 10⟩ true).1
      LayerType.BITMAP ⟨10, 10⟩).computed = some ⟨⟨10, 10⟩, 15, 15, 1⟩ ∧
    (mouseReleaseEvent (mousePressEvent (sample 15 15 false 1 ⟨0, 0⟩) true ⟨10, 10⟩ true).1
      true true LayerType.BITMAP 0).2 =
      [CanvasCall.backup, CanvasCall.refreshBitmap ⟨[⟨10, 10⟩]⟩ 9,
       CanvasCall.paintBitmapBuffer, CanvasCall.setAllDirty, CanvasCall.clearBitmapBuffer,
       CanvasCall.endStroke] ∧
    dabs ((mousePressEvent (sample 15 15 false 1 ⟨0, 0⟩) true ⟨10, 10⟩ true).2 ++
      (mouseReleaseEvent (mousePressEvent (sample 15 15 false 1 ⟨0, 0⟩) true ⟨10, 10⟩ true).1
        true true LayerType.BITMAP 0).2) = [] := by
  have hq10 : qRound (10 : ℚ) = 10 := by
    rw [qRound_eq_floor]
    exact Int.floor_eq_iff.mpr ⟨by norm_num, by norm_num⟩
  have hq15 : qRound (15 : ℚ) = 15 := by
    rw [qRound_eq_floor]
    exact Int.floor_eq_iff.mpr ⟨by norm_num, by norm_num⟩
  have hrad : cDiv 15 2 + 2 = 9 := by decide
  refine ⟨?_, ?_, ?_, ?_⟩
  · norm_num [QLineF.IsLength, mousePressEvent, sample]
  · simp [paintAt, mousePressEvent, sample]
  · simp [mouseReleaseEvent, paintAt, mousePressEvent, sample, paintBitmapStroke,
      BlitRect.empty, BlitRect.extend, QPointF.toPoint, hq10, hq15, hrad]
  · rw [dabs_append, dabs_mouseReleaseEvent]
    simp [mousePressEvent, dabs]

end BrushTool

namespace SelectTool

theorem manageSelectionOrigin_edges (p o : QPointF ℚ) :
    (manageSelectionOrigin p o).left = min o.x p.x ∧
    (manageSelectionOrigin p o).right = max o.x p.x ∧
    (manageSelectionOrigin p o).top = min o.y p.y ∧
    (manageSelectionOrigin p o).bottom = max o.y p.y := by
  unfold manageSelectionOrigin
  by_cases hx : p.x ≤ o.x <;> by_cases hy : p.y ≤ o.y
  · simp [hx, hy, QRectF.left, QRectF.right, QRectF.top, QRectF.bottom, QRectF.setLeft,
      QRectF.setRight, QRectF.setTop, QRectF.setBottom, QRectF.null]
  · have hy2 : o.y ≤ p.y := le_of_lt (not_le.mp hy)
    simp [hx, hy, hy2, QRectF.left, QRectF.right, QRectF.top, QRectF.bottom,
      QRectF.setLeft, QRectF.setRight, QRectF.setTop, QRectF.setBottom, QRectF.null]
  · have hx2 : o.x ≤ p.x := le_of_lt (not_le.mp hx)
    simp [hx, hy, hx2, QRectF.left, QRectF.right, QRectF.top, QRectF.bottom,
      QRectF.setLeft, QRectF.setRight, QRectF.setTop, QRectF.setBottom, QRectF.null]
  · have hx2 : o.x ≤ p.x := le_of_lt (not_le.mp hx)
    have hy2 : o.y ≤ p.y := le_of_lt (not_le.mp hy)
    simp [hx, hy, hx2, hy2, QRectF.left, QRectF.right, QRectF.top, QRectF.bottom,
      QRectF.setLeft, QRectF.setRight, QRectF.setTop, QRectF.setBottom, QRectF.null]

theorem rect_ext_edges {r s : QRectF} (hl : r.left = s.left) (hr : r.right = s.right)
    (ht : r.top = s.top) (hb : r.bottom = s.bottom) : r = s := by
  cases r; cases s
  simp only [QRectF.left, QRectF.right, QRectF.top, QRectF.bottom] at hl hr ht hb
  subst hl; subst ht
  simp only [QRectF.mk.injEq, true_and]
  constructor <;> linarith

/-- C9: for every anchor `o` and pointer position `p`, `manageSelectionOrigin` builds the
bounding box of the two points (left and right are the smaller and larger x, top and
bottom the smaller and larger y); the anchor (10,10) dragged to (50,80) gives the
rectangle (10,10)-(50,80), and swapping anchor and pointer gives the same rectangle. -/
theorem manageSelectionOrigin_bounding_box (o p : QPointF ℚ) :
    (manageSelectionOrigin p o).left = min o.x p.x ∧
    (manageSelectionOrigin p o).right = max o.x p.x ∧
    (manageSelectionOrigin p o).top = min o.y p.y ∧
    (manageSelectionOrigin p o).bottom = max o.y p.y ∧
    manageSelectionOrigin ⟨50, 80⟩ ⟨10, 10⟩ = ⟨10, 10, 40, 70⟩ ∧
    (manageSelectionOrigin ⟨50, 80⟩ ⟨10, 10⟩).left = 10 ∧
    (manageSelectionOrigin ⟨50, 80⟩ ⟨10, 10⟩).top = 10 ∧
    (manageSelectionOrigin ⟨50, 80⟩ ⟨10, 10⟩).right = 50 ∧
    (manageSelectionOrigin ⟨50, 80⟩ ⟨10, 10⟩).bottom = 80 ∧
    manageSelectionOrigin o p = manageSelectionOrigin p o := by
  obtain ⟨h1, h2, h3, h4⟩ := manageSelectionOrigin_edges p o
  obtain ⟨g1, g2, g3, g4⟩ := manageSelectionOrigin_edges o p
  obtain ⟨k1, k2, k3, k4⟩ := manageSelectionOrigin_edges ⟨50, 80⟩ ⟨10, 10⟩
  have e : manageSelectionOrigin ⟨50, 80⟩ ⟨10, 10⟩ = ⟨10, 10, 40, 70⟩ := by
    apply rect_ext_edges
    · rw [k1]; norm_num [QRectF.left]
    · rw [k2]; norm_num [QRectF.right]
    · rw [k3]; norm_num [QRectF.top]
    · rw [k4]; norm_num [QRectF.bottom]
  refine ⟨h1, h2, h3, h4, e, ?_, ?_, ?_, ?_, ?_⟩
  · rw [k1]; norm_num
  · rw [k3]; norm_num
  · rw [k2]; norm_num
  · rw [k4]; norm_num
  · apply rect_ext_edges
    · rw [g1, h1, min_comm]
    · rw [g2, h2, max_comm]
    · rw [g3, h3, min_comm]
    · rw [g4, h4, max_comm]

/-- C10: on a bitmap layer, for every working rectangle (also with left > right,
top > bottom or zero area), `keepSelection` commits exactly one rectangle through
`setSelection`; it satisfies left <= right and top <= bottom, and its edges are those of
the working rectangle, swapped where they were out of order. -/
theorem keepSelection_normalized (temp vectorRect : QRectF) :
    ∃ r : QRectF,
      keepSelection LayerType.BITMAP temp vectorRect =
        [SelectionCall.setSelection r, SelectionCall.backupSelection] ∧
      committed (keepSelection LayerType.BITMAP temp vectorRect) = [r] ∧
      r.left ≤ r.right ∧ r.top ≤ r.bottom ∧
      r.left = min temp.left temp.right ∧ r.right = max temp.left temp.right ∧
      r.top = min temp.top temp.bottom ∧ r.bottom = max temp.top temp.bottom := by
  obtain ⟨xp, yp, w, h⟩ := temp
  by_cases hv : (QRectF.mk xp yp w h).isValid = true
  · refine ⟨⟨xp, yp, w, h⟩, by simp [keepSelection, hv], by simp [keepSelection, hv, committed],
      ?_⟩
    simp only [QRectF.isValid, Bool.and_eq_true, decide_eq_true_eq] at hv
    obtain ⟨hw, hh⟩ := hv
    simp only [QRectF.left, QRectF.right, QRectF.top, QRectF.bottom]
    refine ⟨by linarith, by linarith, ?_, ?_, ?_, ?_⟩
    · rw [min_eq_left (by linarith)]
    · rw [max_eq_right (by linarith)]
    · rw [min_eq_left (by linarith)]
    · rw [max_eq_right (by linarith)]
  · refine ⟨(QRectF.mk xp yp w h).normalized, by simp [keepSelection, hv],
      by simp [keepSelection, hv, committed], ?_⟩
    simp only [QRectF.normalized, QRectF.left, QRectF.right, QRectF.top, QRectF.bottom]
    by_cases hw : w < 0 <;> by_cases hh : h < 0
    · simp only [hw, hh, if_true]
      refine ⟨by linarith, by linarith, ?_, ?_, ?_, ?_⟩
      · rw [min_eq_right (by linarith)]
      · rw [max_eq_left (by linarith)]; ring
      · rw [min_eq_right (by linarith)]
      · rw [max_eq_left (by linarith)]; ring
    · simp only [hw, hh, if_true, if_false]
      have hh2 : 0 ≤ h := not_lt.mp hh
      refine ⟨by linarith, by linarith, ?_, ?_, ?_, ?_⟩
      · rw [min_eq_right (by linarith)]
      · rw [max_eq_left (by linarith)]; ring
      · rw [min_eq_left (by linarith)]
      · rw [max_eq_right (by linarith)]
    · simp only [hw, hh, if_true, if_false]
      have hw2 : 0 ≤ w := not_lt.mp hw
      refine ⟨by linarith, by linarith, ?_, ?_, ?_, ?_⟩
      · rw [min_eq_left (by linarith)]
      · rw [max_eq_right (by linarith)]
      · rw [min_eq_right (by linarith)]
      · rw [max_eq_left (by linarith)]; ring
    · simp only [hw, hh, if_false]
      have hw2 : 0 ≤ w := not_lt.mp hw
      have hh2 : 0 ≤ h := not_lt.mp hh
      refine ⟨by linarith, by linarith, ?_, ?_, ?_, ?_⟩
      · rw [min_eq_left (by linarith)]
      · rw [max_eq_right (by linarith)]
      · rw [min_eq_left (by linarith)]
      · rw [max_eq_right (by linarith)]

end SelectTool
end Pencil
namespace Pencil

theorem qRound_intCast (n : ℤ) : qRound (n : ℚ) = n := by
  rw [qRound_eq_floor]
  exact Int.floor_eq_iff.mpr ⟨by linarith, by linarith⟩

namespace SelectTool

/-- The release handler on a non-null layer with the left button, when the pointer is less
than 5 units from the anchor: it deselects and then still runs `keepSelection`. -/
theorem pointerReleaseEvent_small (t : SelectTool) (env : PointerEnv) (layer : Layer)
    (hl : env.layer = some layer) (hb : env.leftButton = true) (hs : env.anchorLen < 5) :
    pointerReleaseEvent t env =
      (⟨some layer, MoveMode.NONE, t.mAnchorOriginPoint, false, t.mPointOutsideSelection⟩,
       [SelectionCall.deselectAll] ++ keepSelection layer.type env.tempRect env.vectorRect ++
        [SelectionCall.updatePolygons, SelectionCall.updateToolCursor,
         SelectionCall.updateCurrentFrame]) := by
  simp [pointerReleaseEvent, hl, hb, hs]

/-- C11 (evaluation of the code): select tool on a paintable bitmap layer with nothing
selected, left button pressed at (10,10) and released at (12,10), 2 units from the anchor.
The release handler deselects, and then still runs `keepSelection`: it calls
`setSelection` (with the empty working rectangle) and records a selection backup. -/
theorem small_drag_still_commits :
    (pointerPressEvent (sampleTool MoveMode.NONE false)
      (sampleEnv (some ⟨LayerType.BITMAP, true⟩) true ⟨10, 10⟩ ⟨10, 10⟩ 0)).1 =
      ⟨some ⟨LayerType.BITMAP, true⟩, MoveMode.NONE, ⟨10, 10⟩, false, false⟩ ∧
    QLineF.IsLength ⟨10, 10⟩ ⟨12, 10⟩ (2 : ℚ) ∧ (2 : ℚ) < 5 ∧
    (pointerReleaseEvent ⟨some ⟨LayerType.BITMAP, true⟩, MoveMode.NONE, ⟨10, 10⟩, false, false⟩
      (sampleEnv (some ⟨LayerType.BITMAP, true⟩) true ⟨10, 10⟩ ⟨12, 10⟩ 2)).2 =
      [SelectionCall.deselectAll, SelectionCall.setSelection QRectF.null,
       SelectionCall.backupSelection, SelectionCall.updatePolygons,
       SelectionCall.updateToolCursor, SelectionCall.updateCurrentFrame] ∧
    committed (pointerReleaseEvent
      ⟨some ⟨LayerType.BITMAP, true⟩, MoveMode.NONE, ⟨10, 10⟩, false, false⟩
      (sampleEnv (some ⟨LayerType.BITMAP, true⟩) true ⟨10, 10⟩ ⟨12, 10⟩ 2)).2 =
      [QRectF.null] ∧
    SelectionCall.backupSelection ∈ (pointerReleaseEvent
      ⟨some ⟨LayerType.BITMAP, true⟩, MoveMode.NONE, ⟨10, 10⟩, false, false⟩
      (sampleEnv (some ⟨LayerType.BITMAP, true⟩) true ⟨10, 10⟩ ⟨12, 10⟩ 2)).2 := by
  have hq : qRound (10 : ℚ) = 10 := by
    have := qRound_intCast 10
    simpa using this
  have hrel : (pointerReleaseEvent
      ⟨some ⟨LayerType.BITMAP, true⟩, MoveMode.NONE, ⟨10, 10⟩, false, false⟩
      (sampleEnv (some ⟨LayerType.BITMAP, true⟩) true ⟨10, 10⟩ ⟨12, 10⟩ 2)).2 =
      [SelectionCall.deselectAll, SelectionCall.setSelection QRectF.null,
       SelectionCall.backupSelection, SelectionCall.updatePolygons,
       SelectionCall.updateToolCursor, SelectionCall.updateCurrentFrame] := by
    rw [pointerReleaseEvent_small _ _ ⟨LayerType.BITMAP, true⟩ rfl rfl
      (by norm_num [sampleEnv])]
    simp [keepSelection, sampleEnv, QRectF.isValid, QRectF.null, QRectF.normalized]
  refine ⟨?_, by norm_num [QLineF.IsLength], by norm_num, hrel, ?_, ?_⟩
  · simp [pointerPressEvent, beginSelection, sampleTool, sampleEnv, QPointF.toPoint,
      QPoint.toPointF, hq]
  · rw [hrel]; simp [committed]
  · rw [hrel]; simp

/-- C12 (as amended): after a left-button release handled by the select tool on a non-null
layer the select tool's move mode is NONE, whatever it was before; with another button or
no layer the handler returns at once, making no call and leaving the move mode as it was.
The release handler of the move tool never assigns the move mode: it issues no
`setMoveMode` call. -/
theorem release_move_mode (t : SelectTool) (env : PointerEnv) (m : BitmapMoveTool)
    (somethingSelected : Bool) (myRotation : ℚ) :
    (env.layer ≠ none → env.leftButton = true →
      (pointerReleaseEvent t env).1.mMoveMode = MoveMode.NONE) ∧
    ((env.layer = none ∨ env.leftButton = false) →
      (pointerReleaseEvent t env).1.mMoveMode = t.mMoveMode ∧
      (pointerReleaseEvent t env).2 = []) ∧
    (∀ mode : MoveMode, SelectionCall.setMoveMode mode ∉
      (BitmapMoveTool.pointerReleaseEvent m somethingSelected myRotation).2) := by
  refine ⟨?_, ?_, ?_⟩
  · intro hl hb
    cases hlayer : env.layer with
    | none => exact absurd hlayer hl
    | some layer =>
      simp only [pointerReleaseEvent, hlayer, hb]
      by_cases hs : env.anchorLen < 5 <;> simp [hs]
  · intro h
    cases hlayer : env.layer with
    | none => simp [pointerReleaseEvent, hlayer]
    | some layer =>
      rcases h with h | h
      · rw [hlayer] at h; exact absurd h (by simp)
      · simp [pointerReleaseEvent, hlayer, h]
  · intro mode
    cases somethingSelected <;>
      simp [BitmapMoveTool.pointerReleaseEvent, BitmapMoveTool.updateTransformation]

/-- Instance of `release_move_mode`: a left-button release on a bitmap layer while the
selection is being moved. -/
theorem release_move_mode_witness :
    (sampleEnv (some ⟨LayerType.BITMAP, true⟩) true ⟨0, 0⟩ ⟨30, 40⟩ 50).layer ≠ none ∧
    (sampleEnv (some ⟨LayerType.BITMAP, true⟩) true ⟨0, 0⟩ ⟨30, 40⟩ 50).leftButton = true ∧
    (pointerReleaseEvent (sampleTool MoveMode.MIDDLE false)
      (sampleEnv (some ⟨LayerType.BITMAP, true⟩) true ⟨0, 0⟩ ⟨30, 40⟩ 50)).1.mMoveMode =
      MoveMode.NONE :=
  ⟨by simp [sampleEnv], rfl,
   (release_move_mode (sampleTool MoveMode.MIDDLE false)
      (sampleEnv (some ⟨LayerType.BITMAP, true⟩) true ⟨0, 0⟩ ⟨30, 40⟩ 50)
      (BitmapMoveTool.sampleTool 0) true 0).1 (by simp [sampleEnv]) rfl⟩

/-- C12 (counterexample): a release of another button than the left one on a bitmap
layer, while the select tool's move mode is MIDDLE, leaves the mode at MIDDLE. -/
theorem release_move_mode_counterexample :
    (pointerReleaseEvent (sampleTool MoveMode.MIDDLE false)
      (sampleEnv (some ⟨LayerType.BITMAP, true⟩) false ⟨0, 0⟩ ⟨30, 40⟩ 50)).1.mMoveMode =
      MoveMode.MIDDLE ∧
    (pointerReleaseEvent (sampleTool MoveMode.MIDDLE false)
      (sampleEnv (some ⟨LayerType.BITMAP, true⟩) false ⟨0, 0⟩ ⟨30, 40⟩ 50)).1.mMoveMode ≠
      MoveMode.NONE := by
  have h : (pointerReleaseEvent (sampleTool MoveMode.MIDDLE false)
      (sampleEnv (some ⟨LayerType.BITMAP, true⟩) false ⟨0, 0⟩ ⟨30, 40⟩ 50)).1.mMoveMode =
      MoveMode.MIDDLE := by
    simp [pointerReleaseEvent, sampleEnv, sampleTool]
  exact ⟨h, by rw [h]; decide⟩

/-- C13 (evaluation of the code): on a layer that is not paintable, with the selection
being moved and a deselection pending, the press and move handlers return at once
without any call, but a left-button release resets the move mode to NONE, clears the
pending-deselect flag, deselects and records a selection backup. -/
theorem unpaintable_release_not_noop :
    pointerPressEvent (sampleTool MoveMode.MIDDLE true)
      (sampleEnv (some ⟨LayerType.OTHER, false⟩) true ⟨0, 0⟩ ⟨0, 0⟩ 0) =
      (⟨some ⟨LayerType.OTHER, false⟩, MoveMode.MIDDLE, ⟨0, 0⟩, true, false⟩, []) ∧
    pointerMoveEvent (sampleTool MoveMode.MIDDLE true)
      (sampleEnv (some ⟨LayerType.OTHER, false⟩) true ⟨0, 0⟩ ⟨0, 0⟩ 0) =
      (⟨some ⟨LayerType.OTHER, false⟩, MoveMode.MIDDLE, ⟨0, 0⟩, true, false⟩, []) ∧
    pointerReleaseEvent (sampleTool MoveMode.MIDDLE true)
      (sampleEnv (some ⟨LayerType.OTHER, false⟩) true ⟨0, 0⟩ ⟨0, 0⟩ 0) =
      (⟨some ⟨LayerType.OTHER, false⟩, MoveMode.NONE, ⟨0, 0⟩, false, false⟩,
       [SelectionCall.deselectAll, SelectionCall.backupSelection,
        SelectionCall.updatePolygons, SelectionCall.updateToolCursor,
        SelectionCall.updateCurrentFrame]) := by
  refine ⟨?_, ?_, ?_⟩
  · simp [pointerPressEvent, sampleEnv, sampleTool]
  · simp [pointerMoveEvent, sampleEnv, sampleTool]
  · rw [pointerReleaseEvent_small _ _ ⟨LayerType.OTHER, false⟩ rfl rfl
      (by norm_num [sampleEnv])]
    simp [keepSelection, sampleEnv, sampleTool]

end SelectTool

namespace BitmapMoveTool

/-- C14: `switchingLayer` refuses the switch (returns false) exactly when the transform
has been modified and the answer is Cancel, and then it only prompts: nothing is applied,
discarded or deselected. With an unmodified transform it does not prompt, deselects and
returns true. Answer Yes applies the changes, answer No cancels them without applying;
both return true. -/
theorem switchingLayer_three_way (t : BitmapMoveTool) (modified : Bool) (answer : ℤ) :
    ((switchingLayer t modified answer).allowed = false ↔
      (modified = true ∧ answer = QMessageBox.Cancel)) ∧
    (modified = true → answer = QMessageBox.Cancel →
      switchingLayer t modified answer = ⟨t, [SelectionCall.showTransformWarning], false⟩) ∧
    (modified = false →
      switchingLayer t modified answer = ⟨t, [SelectionCall.deselectAll], true⟩) ∧
    (modified = true → answer = QMessageBox.Yes →
      switchingLayer t modified answer =
        ⟨{ t with mRotatedAngle := 0 },
         [SelectionCall.showTransformWarning, SelectionCall.setRotation 0,
          SelectionCall.applySelectionChanges, SelectionCall.deselectAll], true⟩) ∧
    (modified = true → answer = QMessageBox.No →
      switchingLayer t modified answer =
        ⟨t, [SelectionCall.showTransformWarning, SelectionCall.cancelTransformedSelection,
          SelectionCall.resetSelectionProperties, SelectionCall.deselectAll], true⟩) := by
  have hYN : QMessageBox.Yes ≠ QMessageBox.No := by decide
  have hYC : QMessageBox.Yes ≠ QMessageBox.Cancel := by decide
  have hNC : QMessageBox.No ≠ QMessageBox.Cancel := by decide
  refine ⟨?_, ?_, ?_, ?_, ?_⟩
  · cases modified
    · simp [switchingLayer]
    · by_cases h1 : answer = QMessageBox.Yes
      · subst h1; simp [switchingLayer, hYC]
      · by_cases h2 : answer = QMessageBox.No
        · subst h2; simp [switchingLayer, hNC, hYN.symm]
        · by_cases h3 : answer = QMessageBox.Cancel
          · subst h3; simp [switchingLayer, hYC.symm, hNC.symm]
          · simp [switchingLayer, h1, h2, h3]
  · intro hm ha
    subst hm; subst ha
    simp [switchingLayer, hYC.symm, hNC.symm]
  · intro hm
    subst hm
    simp [switchingLayer]
  · intro hm ha
    subst hm; subst ha
    simp [switchingLayer, applySelectionChanges]
  · intro hm ha
    subst hm; subst ha
    simp [switchingLayer, cancelChanges, hYN.symm]

/-- Instance of `switchingLayer_three_way`: a modified transform and the answer Cancel. -/
theorem switchingLayer_three_way_witness :
    true = true ∧ QMessageBox.Cancel = QMessageBox.Cancel ∧
    switchingLayer (sampleTool 30) true QMessageBox.Cancel =
      ⟨sampleTool 30, [SelectionCall.showTransformWarning], false⟩ :=
  ⟨rfl, rfl, (switchingLayer_three_way (sampleTool 30) true QMessageBox.Cancel).2.1 rfl rfl⟩

/-- C15 (as amended): `leavingThisTool` never asks: whatever the state of the transform it
resets the rotation to 0, applies the selection changes and returns true. -/
theorem leavingThisTool_applies (t : BitmapMoveTool) :
    leavingThisTool t =
      ⟨{ t with mRotatedAngle := 0 },
       [SelectionCall.setRotation 0, SelectionCall.applySelectionChanges], true⟩ ∧
    SelectionCall.showTransformWarning ∉ (leavingThisTool t).calls := by
  constructor
  · rfl
  · simp [leavingThisTool, applySelectionChanges]

/-- C15 (counterexample): leaving the move tool with a rotation of 30 degrees pending,
for a user who would answer Cancel: no question is asked, the changes are applied and the
switch is reported as allowed. -/
theorem leavingThisTool_applies_counterexample :
    SelectionCall.showTransformWarning ∉ (leavingThisTool (sampleTool 30)).calls ∧
    SelectionCall.applySelectionChanges ∈ (leavingThisTool (sampleTool 30)).calls ∧
    (leavingThisTool (sampleTool 30)).allowed = true ∧
    (leavingThisTool (sampleTool 30)).allowed ≠ false := by
  refine ⟨?_, ?_, rfl, ?_⟩
  · simp [leavingThisTool, applySelectionChanges]
  · simp [leavingThisTool, applySelectionChanges]
  · simp [leavingThisTool]

end BitmapMoveTool
end Pencil
namespace Pencil
namespace BitmapPolylineTool

theorem clicks_points (ps : List (QPointF ℚ)) :
    ∀ t : BitmapPolylineTool, (clicks t ps).mPoints = t.mPoints ++ ps ∧
      (clicks t ps).properties = t.properties := by
  induction ps with
  | nil => intro t; simp [clicks]
  | cons p rest ih =>
    intro t
    have h := ih (pointerPressEvent t true p).1
    simp only [clicks, List.foldl_cons] at h ⊢
    rw [h.1, h.2]
    simp [pointerPressEvent]

theorem endPolyline_append (t : BitmapPolylineTool) (ps : List (QPointF ℚ)) (q : QPointF ℚ) :
    endPolyline t (ps ++ [q]) =
      some [PolylineCall.drawPolyline (ps ++ [q]) q t.properties.bezier_state
          t.properties.width t.properties.useAA,
        PolylineCall.pasteBuffer, PolylineCall.clearBuffer, PolylineCall.setModified] := by
  simp [endPolyline, drawPolyline]

/-- C16: starting from an empty point list, after left-button presses at `p1 … pn` (any
`n ≥ 0`) and a double-click at `q`, the handler returns, the path handed to `endPolyline`
and drawn is exactly `[p1, …, pn, q]` ending at `q` (4 points after three clicks), it is
pasted into the layer, and the point list is empty afterwards, so that the next click
starts a polyline of its own. -/
theorem doubleClick_commits_path (t : BitmapPolylineTool) (ps : List (QPointF ℚ))
    (q p : QPointF ℚ) (h : t.mPoints = []) :
    (clicks t ps).mPoints = ps ∧
    pointerDoubleClickEvent (clicks t ps) q =
      some (⟨t.properties, []⟩,
        [PolylineCall.backup,
         PolylineCall.drawPolyline (ps ++ [q]) q t.properties.bezier_state
           t.properties.width t.properties.useAA,
         PolylineCall.pasteBuffer, PolylineCall.clearBuffer, PolylineCall.setModified]) ∧
    endPolyline ⟨t.properties, ps ++ [q]⟩ (ps ++ [q]) =
      some [PolylineCall.drawPolyline (ps ++ [q]) q t.properties.bezier_state
          t.properties.width t.properties.useAA,
        PolylineCall.pasteBuffer, PolylineCall.clearBuffer, PolylineCall.setModified] ∧
    (ps.length = 3 → (ps ++ [q]).length = 4) ∧
    (pointerPressEvent (⟨t.properties, []⟩ : BitmapPolylineTool) true p).1.mPoints = [p] := by
  obtain ⟨h1, h2⟩ := clicks_points ps t
  rw [h] at h1
  simp only [List.nil_append] at h1
  refine ⟨h1, ?_, endPolyline_append _ ps q, ?_, ?_⟩
  · have e := endPolyline_append
      ({ clicks t ps with mPoints := (clicks t ps).mPoints ++ [q] }) ps q
    simp only [pointerDoubleClickEvent, h1]
    simp only [h1] at e
    rw [e]
    simp [clearToolData, h2]
  · intro h3
    simp [h3]
  · simp [pointerPressEvent]

/-- Instance of `doubleClick_commits_path`: three clicks and a double-click. -/
theorem doubleClick_commits_path_witness :
    (sampleTool []).mPoints = [] ∧
    pointerDoubleClickEvent (clicks (sampleTool []) [⟨0, 0⟩, ⟨10, 0⟩, ⟨10, 10⟩]) ⟨0, 10⟩ =
      some (⟨(sampleTool []).properties, []⟩,
        [PolylineCall.backup,
         PolylineCall.drawPolyline ([⟨0, 0⟩, ⟨10, 0⟩, ⟨10, 10⟩] ++ [⟨0, 10⟩]) ⟨0, 10⟩
           (sampleTool []).properties.bezier_state (sampleTool []).properties.width
           (sampleTool []).properties.useAA,
         PolylineCall.pasteBuffer, PolylineCall.clearBuffer, PolylineCall.setModified]) :=
  ⟨rfl, (doubleClick_commits_path (sampleTool []) [⟨0, 0⟩, ⟨10, 0⟩, ⟨10, 10⟩] ⟨0, 10⟩ ⟨5, 5⟩
    rfl).2.1⟩

/-- C17: with a non-empty point list, Escape discards the polyline: the point list becomes
empty, the scratch buffer is cleared, nothing is pasted into the layer and the handler
returns true; with an empty point list Escape makes no call, changes nothing and returns
false. -/
theorem escape_discards (t : BitmapPolylineTool) :
    (t.mPoints ≠ [] →
      keyPressEvent t Key.Key_Escape =
        some (⟨t.properties, []⟩,
          [PolylineCall.clearBitmapBuffer, PolylineCall.updateCurrentFrame], true) ∧
      ∀ r, keyPressEvent t Key.Key_Escape = some r → PolylineCall.pasteBuffer ∉ r.2.1) ∧
    (t.mPoints = [] → keyPressEvent t Key.Key_Escape = some (t, [], false)) := by
  constructor
  · intro h
    have hpos : t.mPoints.length > 0 := List.length_pos.mpr h
    have e : keyPressEvent t Key.Key_Escape =
        some (⟨t.properties, []⟩,
          [PolylineCall.clearBitmapBuffer, PolylineCall.updateCurrentFrame], true) := by
      simp [keyPressEvent, hpos, clearToolData, cancelPolyline]
    refine ⟨e, ?_⟩
    intro r hr
    rw [e] at hr
    cases hr
    simp
  · intro h
    simp [keyPressEvent, h]

/-- Instance of `escape_discards`: Escape after two clicks. -/
theorem escape_discards_witness :
    (sampleTool [⟨0, 0⟩, ⟨10, 0⟩]).mPoints ≠ [] ∧
    keyPressEvent (sampleTool [⟨0, 0⟩, ⟨10, 0⟩]) Key.Key_Escape =
      some (⟨(sampleTool [⟨0, 0⟩, ⟨10, 0⟩]).properties, []⟩,
        [PolylineCall.clearBitmapBuffer, PolylineCall.updateCurrentFrame], true) :=
  ⟨by simp [sampleTool],
   ((escape_discards (sampleTool [⟨0, 0⟩, ⟨10, 0⟩])).1 (by simp [sampleTool])).1⟩

end BitmapPolylineTool

/-- C18 (as amended): every property setter of the brush tool (`setWidth`, `setFeather`,
`setUseFeather`, `setPressure`, `setInvisibility`, `setStabilizerLevel`, `setAA`), of the
eraser (`setWidth`, `setFeather`, `setPressure`, `setStabilizerLevel`) and the polyline
setters `setWidth` and `setAA` store their argument at once in the corresponding
property; the polyline tool's `setFeather` ignores its argument and sets the feather
to -1. -/
theorem setters_store (b : BrushTool) (e : BitmapEraserTool ℚ) (l : BitmapPolylineTool)
    (s : QSettings) (x : ℚ) (f : Bool) (n : ℤ) :
    (BrushTool.setWidth b s x).1.properties.width = x ∧
    (BrushTool.setFeather b s x).1.properties.feather = x ∧
    (BrushTool.setUseFeather b s f).1.properties.useFeather = f ∧
    (BrushTool.setPressure b s f).1.properties.pressure = f ∧
    (BrushTool.setInvisibility b s f).1.properties.invisibility = f ∧
    (BrushTool.setStabilizerLevel b s n).1.properties.stabilizerLevel = n ∧
    (BrushTool.setAA b s n).1.properties.useAA = n ∧
    (BitmapEraserTool.setWidth e s x).1.properties.width = x ∧
    (BitmapEraserTool.setFeather e s x).1.properties.feather = x ∧
    (BitmapEraserTool.setPressure e s f).1.properties.pressure = f ∧
    (BitmapEraserTool.setStabilizerLevel e s n).1.properties.stabilizerLevel = n ∧
    (BitmapPolylineTool.setWidth l s x).1.properties.width = x ∧
    (BitmapPolylineTool.setAA l s n).1.properties.useAA = n ∧
    (BitmapPolylineTool.setFeather l x).properties.feather = -1 :=
  ⟨rfl, rfl, rfl, rfl, rfl, rfl, rfl, rfl, rfl, rfl, rfl, rfl, rfl, rfl⟩

/-- C18 (counterexample): the polyline tool's `setFeather(5)` leaves the feather at -1,
not 5. -/
theorem setters_store_counterexample :
    (BitmapPolylineTool.setFeather (BitmapPolylineTool.sampleTool []) 5).properties.feather
      = -1 ∧
    (BitmapPolylineTool.setFeather (BitmapPolylineTool.sampleTool []) 5).properties.feather
      ≠ 5 := by
  have h : (BitmapPolylineTool.setFeather
      (BitmapPolylineTool.sampleTool []) 5).properties.feather = -1 := rfl
  exact ⟨h, by rw [h]; norm_num⟩

namespace BrushTool

theorem loadSettings_others (t : BrushTool) (s : QSettings) :
    (loadSettings t s).1.properties.feather =
      (s.valueOr "brushFeather" (QVariant.double 15)).toDouble ∧
    (loadSettings t s).1.properties.useFeather =
      (s.valueOr "brushUseFeather" (QVariant.bool true)).toBool ∧
    (loadSettings t s).1.properties.pressure =
      (s.valueOr "brushPressure" (QVariant.bool false)).toBool ∧
    (loadSettings t s).1.properties.invisibility =
      (s.valueOr "brushInvisibility" (QVariant.bool true)).toBool ∧
    (loadSettings t s).1.properties.stabilizerLevel =
      (s.value "brushLineStabilization").toInt ∧
    (loadSettings t s).1.properties.useAA =
      (if (s.valueOr "brushUseFeather" (QVariant.bool true)).toBool = true then -1
       else (s.value "brushAA").toInt) := by
  unfold loadSettings
  by_cases h : (s.value "brushWidth").toDouble ≤ 0
  · simp [h, setWidth]
  · simp [h]

theorem aaForcedOff_of_props {t u : BrushTool}
    (h1 : u.properties.useFeather = t.properties.useFeather)
    (h2 : u.properties.useAA = t.properties.useAA) (h : aaForcedOff t) : aaForcedOff u := by
  unfold aaForcedOff at *
  rw [h1, h2]
  exact h

/-- C20 (as amended): "useFeather implies useAA = -1" holds after every `loadSettings`.
It is preserved by `setWidth`, `setFeather`, `setPressure`, `setInvisibility` and
`setStabilizerLevel`, which touch neither property. `setUseFeather(v)` and `setAA(v)`
store their argument without adjusting the other property: after `setUseFeather(v)` the
predicate holds exactly when `v` is false or `useAA` is already -1, and after `setAA(v)`
exactly when feathering is off or `v = -1`. -/
theorem aa_forced_off (t : BrushTool) (s : QSettings) (x : ℚ) (f : Bool) (n : ℤ) :
    aaForcedOff (loadSettings t s).1 ∧
    (aaForcedOff t → aaForcedOff (setWidth t s x).1) ∧
    (aaForcedOff t → aaForcedOff (setFeather t s x).1) ∧
    (aaForcedOff t → aaForcedOff (setPressure t s f).1) ∧
    (aaForcedOff t → aaForcedOff (setInvisibility t s f).1) ∧
    (aaForcedOff t → aaForcedOff (setStabilizerLevel t s n).1) ∧
    (aaForcedOff (setUseFeather t s f).1 ↔ (f = false ∨ t.properties.useAA = -1)) ∧
    (aaForcedOff (setAA t s n).1 ↔ (t.properties.useFeather = false ∨ n = -1)) := by
  refine ⟨?_, aaForcedOff_of_props rfl rfl, aaForcedOff_of_props rfl rfl,
    aaForcedOff_of_props rfl rfl, aaForcedOff_of_props rfl rfl,
    aaForcedOff_of_props rfl rfl, ?_, ?_⟩
  · intro h
    rw [(loadSettings_others t s).2.1] at h
    rw [(loadSettings_others t s).2.2.2.2.2, if_pos h]
  · unfold aaForcedOff
    simp only [setUseFeather]
    cases f <;> simp
  · unfold aaForcedOff
    simp only [setAA]
    cases h : t.properties.useFeather <;> simp

/-- Instance of `aa_forced_off`: setting the width keeps the predicate. -/
theorem aa_forced_off_witness :
    aaForcedOff (sample 15 15 false 1 ⟨0, 0⟩) ∧
    aaForcedOff (setWidth (sample 15 15 false 1 ⟨0, 0⟩) QSettings.empty 20).1 :=
  ⟨fun _ => rfl,
   (aa_forced_off (sample 15 15 false 1 ⟨0, 0⟩) QSettings.empty 20 false 0).2.1
    (fun _ => rfl)⟩

/-- C20 (counterexample): with feathering stored as off and anti-aliasing stored as 1,
`loadSettings` gives `useFeather = false`, `useAA = 1`; `setUseFeather(true)` then leaves
`useAA` at 1 while feathering is on. Likewise `setAA(1)` on a feathered brush. -/
theorem aa_forced_off_counterexample :
    aaForcedOff (loadSettings (sample 15 15 false 1 ⟨0, 0⟩)
      ((QSettings.empty.setValue "brushUseFeather" (QVariant.bool false)).setValue
        "brushAA" (QVariant.int 1))).1 ∧
    (setUseFeather (loadSettings (sample 15 15 false 1 ⟨0, 0⟩)
      ((QSettings.empty.setValue "brushUseFeather" (QVariant.bool false)).setValue
        "brushAA" (QVariant.int 1))).1 QSettings.empty true).1.properties.useFeather = true ∧
    (setUseFeather (loadSettings (sample 15 15 false 1 ⟨0, 0⟩)
      ((QSettings.empty.setValue "brushUseFeather" (QVariant.bool false)).setValue
        "brushAA" (QVariant.int 1))).1 QSettings.empty true).1.properties.useAA = 1 ∧
    ¬ aaForcedOff (setUseFeather (loadSettings (sample 15 15 false 1 ⟨0, 0⟩)
      ((QSettings.empty.setValue "brushUseFeather" (QVariant.bool false)).setValue
        "brushAA" (QVariant.int 1))).1 QSettings.empty true).1 ∧
    aaForcedOff (sample 15 15 false 1 ⟨0, 0⟩) ∧
    ¬ aaForcedOff (setAA (sample 15 15 false 1 ⟨0, 0⟩) QSettings.empty 1).1 := by
  have hAA : (loadSettings (sample 15 15 false 1 ⟨0, 0⟩)
      ((QSettings.empty.setValue "brushUseFeather" (QVariant.bool false)).setValue
        "brushAA" (QVariant.int 1))).1.properties.useAA = 1 := by
    rw [(loadSettings_others _ _).2.2.2.2.2]
    simp [QSettings.setValue, QSettings.valueOr, QSettings.value, QSettings.empty,
      QVariant.toBool, QVariant.toInt]
  have hF : (loadSettings (sample 15 15 false 1 ⟨0, 0⟩)
      ((QSettings.empty.setValue "brushUseFeather" (QVariant.bool false)).setValue
        "brushAA" (QVariant.int 1))).1.properties.useFeather = false := by
    rw [(loadSettings_others _ _).2.1]
    simp [QSettings.setValue, QSettings.valueOr, QSettings.empty, QVariant.toBool]
  have h3 : (setUseFeather (loadSettings (sample 15 15 false 1 ⟨0, 0⟩)
      ((QSettings.empty.setValue "brushUseFeather" (QVariant.bool false)).setValue
        "brushAA" (QVariant.int 1))).1 QSettings.empty true).1.properties.useAA = 1 := hAA
  refine ⟨?_, rfl, h3, ?_, fun _ => rfl, ?_⟩
  · intro h
    rw [hF] at h
    exact absurd h (by decide)
  · intro h
    have := h rfl
    rw [h3] at this
    exact absurd this (by decide)
  · intro h
    have := h rfl
    exact absurd this (by decide)

end BrushTool
end Pencil
namespace Pencil
namespace BitmapMoveTool

theorem setMoveMode_mem_beginInteraction (t : BitmapMoveTool) (keyMod : ℕ) (env : MoveEnv) :
    SelectionCall.setMoveMode MoveMode.ROTATION ∈ (beginInteraction t keyMod env).2 ↔
      (env.validatedMode = MoveMode.MIDDLE ∧ keyMod = Qt.ControlModifier) := by
  unfold beginInteraction
  by_cases h1 : env.transformedRect.isNull = true <;>
    by_cases h2 : keyMod = Qt.ShiftModifier <;>
    by_cases h3 : env.outsideSelectionArea = true <;>
    by_cases h4 : env.validatedMode = MoveMode.MIDDLE <;>
    by_cases h5 : keyMod = Qt.ControlModifier <;>
    simp [h1, h2, h3, h4, h5]

/-- C21 (as amended): in `beginInteraction`, for a press whose validated mode is MIDDLE,
the move mode is set to ROTATION exactly when the modifiers held are Control alone; with
Control and another modifier, or without Control, the press does not set ROTATION. -/
theorem beginInteraction_rotation (t : BitmapMoveTool) (keyMod : ℕ) (env : MoveEnv) :
    (env.validatedMode = MoveMode.MIDDLE →
      (SelectionCall.setMoveMode MoveMode.ROTATION ∈ (beginInteraction t keyMod env).2 ↔
        keyMod = Qt.ControlModifier)) ∧
    (env.validatedMode = MoveMode.MIDDLE → keyMod = Qt.ControlModifier →
      (beginInteraction t keyMod env).1.mRotatedAngle =
        env.differenceAngle - env.myRotation) ∧
    (keyMod &&& Qt.ControlModifier = 0 →
      SelectionCall.setMoveMode MoveMode.ROTATION ∉ (beginInteraction t keyMod env).2) := by
  refine ⟨?_, ?_, ?_⟩
  · intro h
    rw [setMoveMode_mem_beginInteraction]
    simp [h]
  · intro h1 h2
    simp [beginInteraction, h1, h2]
  · intro h hmem
    rw [setMoveMode_mem_beginInteraction] at hmem
    rw [hmem.2, Nat.and_self] at h
    exact absurd h (by decide)

/-- Instance of `beginInteraction_rotation`: Control alone on the body of the selection. -/
theorem beginInteraction_rotation_witness :
    sampleEnv.validatedMode = MoveMode.MIDDLE ∧
    (SelectionCall.setMoveMode MoveMode.ROTATION ∈
      (beginInteraction (sampleTool 0) Qt.ControlModifier sampleEnv).2 ↔
        Qt.ControlModifier = Qt.ControlModifier) :=
  ⟨rfl, (beginInteraction_rotation (sampleTool 0) Qt.ControlModifier sampleEnv).1 rfl⟩

/-- C21 (counterexample): a press on the body of the selection (validated mode MIDDLE)
with Control and Shift held together does not set the mode to ROTATION. -/
theorem beginInteraction_rotation_counterexample :
    sampleEnv.validatedMode = MoveMode.MIDDLE ∧
    (Qt.ControlModifier ||| Qt.ShiftModifier) &&& Qt.ControlModifier ≠ 0 ∧
    SelectionCall.setMoveMode MoveMode.ROTATION ∉
      (beginInteraction (sampleTool 0) (Qt.ControlModifier ||| Qt.ShiftModifier)
        sampleEnv).2 := by
  refine ⟨rfl, by decide, ?_⟩
  rw [setMoveMode_mem_beginInteraction]
  intro h
  exact absurd h.2 (by decide)

end BitmapMoveTool

theorem qRed_le (rgb : ℕ) : qRed rgb ≤ 255 := Nat.and_le_right
theorem qGreen_le (rgb : ℕ) : qGreen rgb ≤ 255 := Nat.and_le_right
theorem qBlue_le (rgb : ℕ) : qBlue rgb ≤ 255 := Nat.and_le_right
theorem qAlpha_le (rgb : ℕ) : qAlpha rgb ≤ 255 := Nat.and_le_right

theorem clamp_add_transp (c a : ℕ) (ha : a ≤ 255) :
    QColor.clamp ((c : ℤ) + (255 - (a : ℤ))) = min 255 ((c : ℤ) + 255 - (a : ℤ)) := by
  unfold QColor.clamp
  have h0 : (0 : ℤ) ≤ (c : ℤ) + (255 - (a : ℤ)) := by omega
  rw [max_eq_right (le_min h0 (by norm_num)), min_comm]
  congr 1
  ring

namespace BitmapEyedropperTool

theorem pickedColour_eq (pixel : ℕ) :
    pickedColour pixel =
      ⟨min 255 ((qRed pixel : ℤ) + 255 - (qAlpha pixel : ℤ)),
       min 255 ((qGreen pixel : ℤ) + 255 - (qAlpha pixel : ℤ)),
       min 255 ((qBlue pixel : ℤ) + 255 - (qAlpha pixel : ℤ)),
       (qAlpha pixel : ℤ)⟩ := by
  simp only [pickedColour, QColor.ofRgba, QColor.setRed, QColor.setGreen, QColor.setBlue]
  rw [clamp_add_transp _ _ (qAlpha_le pixel), clamp_add_transp _ _ (qAlpha_le pixel),
    clamp_add_transp _ _ (qAlpha_le pixel)]

/-- C24 (as amended): for every pixel with alpha `a != 0`, `updateFrontColor` sets the
front colour to `(min(255, r + 255 - a), min(255, g + 255 - a), min(255, b + 255 - a))`
with alpha `a`; for a premultiplied pixel (`r, g, b <= a`) this is exactly
`(r + 255 - a, g + 255 - a, b + 255 - a)` with every channel within 0..255; for a fully
transparent pixel the front colour is not set. -/
theorem updateFrontColor_composite (layer : Layer) (pixel : ℕ) :
    (qAlpha pixel ≠ 0 →
      updateFrontColor (some layer) pixel =
        [EyedropperCall.setColor
          ⟨min 255 ((qRed pixel : ℤ) + 255 - (qAlpha pixel : ℤ)),
           min 255 ((qGreen pixel : ℤ) + 255 - (qAlpha pixel : ℤ)),
           min 255 ((qBlue pixel : ℤ) + 255 - (qAlpha pixel : ℤ)),
           (qAlpha pixel : ℤ)⟩]) ∧
    (qAlpha pixel ≠ 0 → qRed pixel ≤ qAlpha pixel → qGreen pixel ≤ qAlpha pixel →
      qBlue pixel ≤ qAlpha pixel →
      updateFrontColor (some layer) pixel =
        [EyedropperCall.setColor
          ⟨(qRed pixel : ℤ) + 255 - (qAlpha pixel : ℤ),
           (qGreen pixel : ℤ) + 255 - (qAlpha pixel : ℤ),
           (qBlue pixel : ℤ) + 255 - (qAlpha pixel : ℤ),
           (qAlpha pixel : ℤ)⟩] ∧
      0 ≤ (qRed pixel : ℤ) + 255 - (qAlpha pixel : ℤ) ∧
      (qRed pixel : ℤ) + 255 - (qAlpha pixel : ℤ) ≤ 255 ∧
      0 ≤ (qGreen pixel : ℤ) + 255 - (qAlpha pixel : ℤ) ∧
      (qGreen pixel : ℤ) + 255 - (qAlpha pixel : ℤ) ≤ 255 ∧
      0 ≤ (qBlue pixel : ℤ) + 255 - (qAlpha pixel : ℤ) ∧
      (qBlue pixel : ℤ) + 255 - (qAlpha pixel : ℤ) ≤ 255) ∧
    (qAlpha pixel = 0 → updateFrontColor (some layer) pixel = []) := by
  have hA := qAlpha_le pixel
  have key : ∀ h : qAlpha pixel ≠ 0,
      updateFrontColor (some layer) pixel =
        [EyedropperCall.setColor
          ⟨min 255 ((qRed pixel : ℤ) + 255 - (qAlpha pixel : ℤ)),
           min 255 ((qGreen pixel : ℤ) + 255 - (qAlpha pixel : ℤ)),
           min 255 ((qBlue pixel : ℤ) + 255 - (qAlpha pixel : ℤ)),
           (qAlpha pixel : ℤ)⟩] := by
    intro h
    have hne : ((qAlpha pixel : ℕ) : ℤ) ≠ 0 := by exact_mod_cast h
    simp only [updateFrontColor, pickedColour_eq]
    rw [if_pos hne]
  refine ⟨key, ?_, ?_⟩
  · intro h hr hg hb
    have hr' : (qRed pixel : ℤ) ≤ (qAlpha pixel : ℤ) := by exact_mod_cast hr
    have hg' : (qGreen pixel : ℤ) ≤ (qAlpha pixel : ℤ) := by exact_mod_cast hg
    have hb' : (qBlue pixel : ℤ) ≤ (qAlpha pixel : ℤ) := by exact_mod_cast hb
    have hA' : (qAlpha pixel : ℤ) ≤ 255 := by exact_mod_cast hA
    refine ⟨?_, by omega, by omega, by omega, by omega, by omega, by omega⟩
    rw [key h, min_eq_right (by omega), min_eq_right (by omega), min_eq_right (by omega)]
  · intro h
    simp [updateFrontColor, pickedColour_eq, h]

/-- Instance of `updateFrontColor_composite`: the half-transparent premultiplied red
pixel (128, 0, 0, 128) is picked as (255, 127, 127) with alpha 128. -/
theorem updateFrontColor_composite_witness :
    qAlpha (qRgba 128 0 0 128) ≠ 0 ∧
    updateFrontColor (some ⟨LayerType.BITMAP, true⟩) (qRgba 128 0 0 128) =
      [EyedropperCall.setColor
        ⟨min 255 ((qRed (qRgba 128 0 0 128) : ℤ) + 255 - (qAlpha (qRgba 128 0 0 128) : ℤ)),
         min 255 ((qGreen (qRgba 128 0 0 128) : ℤ) + 255 - (qAlpha (qRgba 128 0 0 128) : ℤ)),
         min 255 ((qBlue (qRgba 128 0 0 128) : ℤ) + 255 - (qAlpha (qRgba 128 0 0 128) : ℤ)),
         (qAlpha (qRgba 128 0 0 128) : ℤ)⟩] :=
  ⟨by decide,
   (updateFrontColor_composite ⟨LayerType.BITMAP, true⟩ (qRgba 128 0 0 128)).1
    (by decide)⟩

/-- C24 (counterexample): the pixel (200, 0, 0, 100), whose red exceeds its alpha, is
picked with red 255, not 200 + 255 - 100 = 355. -/
theorem updateFrontColor_composite_counterexample :
    qRed (qRgba 200 0 0 100) = 200 ∧ qGreen (qRgba 200 0 0 100) = 0 ∧
    qBlue (qRgba 200 0 0 100) = 0 ∧ qAlpha (qRgba 200 0 0 100) = 100 ∧
    updateFrontColor (some ⟨LayerType.BITMAP, true⟩) (qRgba 200 0 0 100) =
      [EyedropperCall.setColor ⟨255, 155, 155, 100⟩] ∧
    updateFrontColor (some ⟨LayerType.BITMAP, true⟩) (qRgba 200 0 0 100) ≠
      [EyedropperCall.setColor ⟨200 + 255 - 100, 0 + 255 - 100, 0 + 255 - 100, 100⟩] := by
  have hr : qRed (qRgba 200 0 0 100) = 200 := by decide
  have hg : qGreen (qRgba 200 0 0 100) = 0 := by decide
  have hb : qBlue (qRgba 200 0 0 100) = 0 := by decide
  have ha : qAlpha (qRgba 200 0 0 100) = 100 := by decide
  have he : updateFrontColor (some ⟨LayerType.BITMAP, true⟩) (qRgba 200 0 0 100) =
      [EyedropperCall.setColor ⟨255, 155, 155, 100⟩] := by
    simp only [updateFrontColor, pickedColour_eq, hr, hg, hb, ha]
    decide
  refine ⟨hr, hg, hb, ha, he, ?_⟩
  rw [he]
  decide

end BitmapEyedropperTool

namespace BrushSettingWidget

/-- C25 (evaluation of the code): a widget with original range [0, 1] and mapped range
[0, 100] showing 1/2 (slider at 50). Re-applying the unchanged range leaves it as it is.
After the slider is moved to 80, `updateSetting` reports 4/5 to the brush but stores the
slider value 80 in `mCurrentValue`; re-applying the unchanged range then sends the slider
and the spin box to 8000 and the visual box to 80. -/
theorem setRange_after_updateSetting :
    sampleWidget 0 1 0 100 (1 / 2) = ⟨0, 1, 0, 100, 1 / 2, 50, 50, 1 / 2⟩ ∧
    setRange MathUtils.affine (sampleWidget 0 1 0 100 (1 / 2)) 0 1 =
      sampleWidget 0 1 0 100 (1 / 2) ∧
    updateSetting MathUtils.affine (sampleWidget 0 1 0 100 (1 / 2)) 80 =
      (⟨0, 1, 0, 100, 80, 80, 80, 4 / 5⟩, 4 / 5) ∧
    setRange MathUtils.affine
      (updateSetting MathUtils.affine (sampleWidget 0 1 0 100 (1 / 2)) 80).1 0 1 =
      ⟨0, 1, 0, 100, 80, 8000, 8000, 80⟩ := by
  have h0 : sampleWidget 0 1 0 100 (1 / 2) = ⟨0, 1, 0, 100, 1 / 2, 50, 50, 1 / 2⟩ := by
    simp only [sampleWidget, setValue, MathUtils.affine]
    norm_num
  have h1 : updateSetting MathUtils.affine ⟨0, 1, 0, 100, 1 / 2, 50, 50, 1 / 2⟩ 80 =
      (⟨0, 1, 0, 100, 80, 80, 80, 4 / 5⟩, 4 / 5) := by
    simp only [updateSetting, setValueInternal, MathUtils.affine]
    norm_num
  rw [h0, h1]
  refine ⟨rfl, ?_, rfl, ?_⟩
  · simp only [setRange, setValue, MathUtils.affine]
    norm_num
  · simp only [setRange, setValue, MathUtils.affine]
    norm_num

end BrushSettingWidget
end Pencil
namespace Pencil

variable {K : Type} [LinearOrderedField K] [FloorRing K]

theorem abs_qRound_sub_le (x : K) : |((qRound x : ℤ) : K) - x| ≤ 1 / 2 := by
  rw [qRound_eq_floor, abs_sub_le_iff]
  have h1 := Int.floor_le (x + 1 / 2)
  have h2 := Int.lt_floor_add_one (x + 1 / 2)
  constructor <;> linarith

theorem rad_ge (w : K) (hw : 0 ≤ w) :
    w / 2 + 1 / 2 ≤ ((cDiv (qRound w) 2 + 2 : ℤ) : K) := by
  have hq : 0 ≤ qRound w := qRound_nonneg hw
  have hd : cDiv (qRound w) 2 = qRound w / 2 := Int.tdiv_eq_ediv hq (by norm_num)
  have h2 : qRound w - 1 ≤ 2 * (qRound w / 2) := by omega
  have h3 : ((qRound w : ℤ) : K) - 1 ≤ 2 * (((qRound w / 2 : ℤ)) : K) := by exact_mod_cast h2
  have h4 := abs_sub_le_iff.mp (abs_qRound_sub_le w)
  rw [hd]
  push_cast
  linarith [h4.1, h4.2]

namespace BitmapEraserTool

omit [FloorRing K] in
theorem dabPoint_eq_smul (a b : QPointF K) (step distance : K) (i : ℕ) :
    dabPoint a b step distance i =
      a.add (QPointF.smul (((i : K) + 1) * step / distance) (b.sub a)) := by
  simp only [dabPoint, QPointF.add, QPointF.smul, QPointF.div, QPointF.sub]
  push_cast
  congr 1 <;> ring

theorem getLast?_append_pair {α : Type} (l : List α) (x y : α) :
    (l ++ [x, y]).getLast? = some y := by
  simp

theorem drawStroke_rect (t : BitmapEraserTool K) (cur : QPointF K) (pressure len : K) :
    (drawStroke t cur pressure len).2.getLast? =
      some (CanvasCall.refreshBitmap
        ⟨(dabs (drawStroke t cur pressure len).2).map (fun d => d.point.toPoint)⟩
        (cDiv (qRound (dabWidth t pressure)) 2 + 2)) := by
  rw [drawStroke_dabs]
  simp only [drawStroke]
  rw [foldl_loopBody t t.mLastBrushPoint cur _ _ _ _ _ _ rfl _ (le_refl _)]
  rw [getLast?_append_pair]
  simp [List.map_map, Function.comp_def]

/-- C23: for every dab width `w >= 0` the radius `rad = qRound(w) / 2 + 2` (integer
division) handed to `refreshBitmap` is at least `w/2 + 1/2`, and a rounded centre is at
most half a unit from the centre in each coordinate. `paintAt` refreshes the rectangle of
its rounded centre with that radius, and `drawStroke` ends by refreshing the rectangle of
the rounded centres of all its dabs with that radius. -/
theorem refresh_radius_covers (t : BitmapEraserTool K) (point cur : QPointF K)
    (pressure len : K) (hw : 0 ≤ dabWidth t pressure) :
    dabWidth t pressure / 2 + 1 / 2 ≤
      ((cDiv (qRound (dabWidth t pressure)) 2 + 2 : ℤ) : K) ∧
    |((point.toPoint.x : ℤ) : K) - point.x| ≤ 1 / 2 ∧
    |((point.toPoint.y : ℤ) : K) - point.y| ≤ 1 / 2 ∧
    (paintAt t point pressure).2.getLast? =
      some (CanvasCall.refreshBitmap ⟨[point.toPoint]⟩
        (cDiv (qRound (dabWidth t pressure)) 2 + 2)) ∧
    (drawStroke t cur pressure len).2.getLast? =
      some (CanvasCall.refreshBitmap
        ⟨(dabs (drawStroke t cur pressure len).2).map (fun d => d.point.toPoint)⟩
        (cDiv (qRound (dabWidth t pressure)) 2 + 2)) := by
  refine ⟨rad_ge _ hw, abs_qRound_sub_le _, abs_qRound_sub_le _, ?_, drawStroke_rect _ _ _ _⟩
  simp [paintAt, BlitRect.empty, BlitRect.extend]

/-- Instance of `refresh_radius_covers`: the default eraser, width 24, without pressure:
the radius is 14. -/
theorem refresh_radius_covers_witness :
    0 ≤ dabWidth (sample 24 48 false ⟨0, 0⟩ ⟨0, 0⟩) 1 ∧
    dabWidth (sample 24 48 false ⟨0, 0⟩ ⟨0, 0⟩) 1 / 2 + 1 / 2 ≤
      ((cDiv (qRound (dabWidth (sample 24 48 false ⟨0, 0⟩ ⟨0, 0⟩) 1)) 2 + 2 : ℤ) : ℚ) :=
  ⟨by norm_num [dabWidth, sample],
   (refresh_radius_covers (sample 24 48 false ⟨0, 0⟩ ⟨0, 0⟩) ⟨0, 0⟩ ⟨3, 4⟩ 1 5
    (by norm_num [dabWidth, sample])).1⟩

/-- C22 (as amended): for a call of `drawStroke` from `a = mLastBrushPoint` towards `b`
that reads the length `D > 0`, with spacing `S = brushStep`, the `k`-th dab (`k = 1..n`)
is the linear interpolation `a + (k*S/(4*D)) * (b - a)`, and `k*S <= 4*D + 1/2`. When `D`
is the length of the segment from `a` to `b`, the `k`-th dab lies at arc length `k*S/4`
from `a` on the ray towards `b` and consecutive dabs are `S/4` apart, so a dab is at
most 1/8 unit beyond `b`. When a dab is emitted the new `mLastBrushPoint` is the last
one. -/
theorem drawStroke_dab_positions (t : BitmapEraserTool K) (cur : QPointF K) (pressure len : K)
    (hpos : 0 < len) :
    dabs (drawStroke t cur pressure len).2 =
      (List.range (dabs (drawStroke t cur pressure len).2).length).map
        (fun i : ℕ => (⟨t.mLastBrushPoint.add (QPointF.smul
            (((i : K) + 1) * brushStep t.properties.feather (dabWidth t pressure) / (4 * len))
            (cur.sub t.mLastBrushPoint)),
          dabWidth t pressure, t.properties.feather, dabOpacity t pressure⟩ : Dab K)) ∧
    (∀ i : ℕ, i < (dabs (drawStroke t cur pressure len).2).length →
      ((i : K) + 1) * brushStep t.properties.feather (dabWidth t pressure) ≤
        4 * len + 1 / 2 ∧
      (QLineF.IsLength t.mLastBrushPoint cur len →
        QLineF.IsLength t.mLastBrushPoint
          (t.mLastBrushPoint.add (QPointF.smul
            (((i : K) + 1) * brushStep t.properties.feather (dabWidth t pressure) /
              (4 * len))
            (cur.sub t.mLastBrushPoint)))
          (((i : K) + 1) * brushStep t.properties.feather (dabWidth t pressure) / 4) ∧
        QLineF.IsLength
          (t.mLastBrushPoint.add (QPointF.smul
            (((i : K) + 1) * brushStep t.properties.feather (dabWidth t pressure) /
              (4 * len))
            (cur.sub t.mLastBrushPoint)))
          (t.mLastBrushPoint.add (QPointF.smul
            ((((i + 1 : ℕ) : K) + 1) * brushStep t.properties.feather (dabWidth t pressure) /
              (4 * len))
            (cur.sub t.mLastBrushPoint)))
          (brushStep t.properties.feather (dabWidth t pressure) / 4))) ∧
    (0 < (dabs (drawStroke t cur pressure len).2).length →
      (dabs (drawStroke t cur pressure len).2).getLast? =
        some ⟨(drawStroke t cur pressure len).1.mLastBrushPoint, dabWidth t pressure,
          t.properties.feather, dabOpacity t pressure⟩) := by
  have hS := brushStep_pos t.properties.feather (dabWidth t pressure)
  have hX : (0 : K) ≤ 4 * len := by linarith
  have hne : (4 * len) ≠ 0 := by linarith
  have hlen : len ≠ 0 := by linarith
  have hcount := drawStroke_count t cur pressure len
  refine ⟨?_, ?_, ?_⟩
  · rw [hcount, drawStroke_dabs]
    apply List.map_congr_left
    intro i _
    rw [dabPoint_eq_smul]
  · intro i hi
    rw [hcount] at hi
    generalize brushStep t.properties.feather (dabWidth t pressure) = S at hS hi ⊢
    have hi0 : (0 : K) ≤ (i : K) := Nat.cast_nonneg i
    refine ⟨?_, fun h => ⟨?_, ?_⟩⟩
    · obtain ⟨b1, _, b3, _⟩ := stepCount_bounds hX hS
      have hnn := stepCount_nonneg hX hS
      have hcast : ((i : K) + 1) ≤ ((stepCount (4 * len) S : ℤ) : K) := by
        have : ((i : ℤ) + 1) ≤ stepCount (4 * len) S := by omega
        exact_mod_cast this
      have : ((i : K) + 1) * S ≤ ((stepCount (4 * len) S : ℤ) : K) * S :=
        mul_le_mul_of_nonneg_right hcast (le_of_lt hS)
      linarith
    · have hc : (0 : K) ≤ ((i : K) + 1) * S / (4 * len) := by positivity
      have e := isLength_along h hc
      have e2 : ((i : K) + 1) * S / (4 * len) * len = ((i : K) + 1) * S / 4 := by
        field_simp
        ring
      rw [e2] at e
      exact e
    · have hcd : ((i : K) + 1) * S / (4 * len) ≤
          ((((i + 1 : ℕ) : K)) + 1) * S / (4 * len) := by
        apply div_le_div_of_nonneg_right _ hX
        push_cast
        nlinarith
      have e := isLength_between h hcd
      have e2 : (((((i + 1 : ℕ) : K)) + 1) * S / (4 * len) -
          ((i : K) + 1) * S / (4 * len)) * len = S / 4 := by
        push_cast
        field_simp
        ring
      rw [e2] at e
      exact e
  · intro hn
    rw [hcount] at hn
    rw [drawStroke_last, if_pos hn, drawStroke_dabs, List.getLast?_map,
      List.getLast?_range]
    simp [Nat.ne_of_gt hn]

end BitmapEraserTool
end Pencil
namespace Pencil

variable {K : Type} [LinearOrderedField K] [FloorRing K]
namespace BitmapEraserTool

/-- Instances of `drawStroke_dab_positions`: over the rationals, on the segment from
(0,0) to (3,4), of length 5; over the reals, on the diagonal from (0,0) to (1,1), of
length `√2`, where the `k`-th dab is at arc length `k*S/4` from the start. -/
theorem drawStroke_dab_positions_witness :
    QLineF.IsLength (sample 2 0 false ⟨0, 0⟩ ⟨0, 0⟩).mLastBrushPoint ⟨3, 4⟩ 5 ∧ (0 : ℚ) < 5 ∧
    dabs (drawStroke (sample 2 0 false ⟨0, 0⟩ ⟨0, 0⟩) ⟨3, 4⟩ 1 5).2 =
      (List.range (dabs (drawStroke (sample 2 0 false ⟨0, 0⟩ ⟨0, 0⟩) ⟨3, 4⟩ 1 5).2).length).map
        (fun i : ℕ => (⟨(sample 2 0 false ⟨0, 0⟩ ⟨0, 0⟩).mLastBrushPoint.add (QPointF.smul
            (((i : ℚ) + 1) * brushStep (sample 2 0 false ⟨0, 0⟩ ⟨0, 0⟩).properties.feather
              (dabWidth (sample 2 0 false ⟨0, 0⟩ ⟨0, 0⟩) 1) / (4 * 5))
            (QPointF.sub ⟨3, 4⟩ (sample 2 0 false ⟨0, 0⟩ ⟨0, 0⟩).mLastBrushPoint)),
          dabWidth (sample 2 0 false ⟨0, 0⟩ ⟨0, 0⟩) 1,
          (sample 2 0 false ⟨0, 0⟩ ⟨0, 0⟩).properties.feather,
          dabOpacity (sample 2 0 false ⟨0, 0⟩ ⟨0, 0⟩) 1⟩ : Dab ℚ)) ∧
    (0 : ℝ) < Real.sqrt 2 ∧
    QLineF.IsLength (sampleIn ℝ 2 0 false ⟨0, 0⟩ ⟨0, 0⟩).mLastBrushPoint ⟨1, 1⟩
      (Real.sqrt 2) ∧
    (∀ i : ℕ,
      i < (dabs (drawStroke (sampleIn ℝ 2 0 false ⟨0, 0⟩ ⟨0, 0⟩) ⟨1, 1⟩ 1
        (Real.sqrt 2)).2).length →
      QLineF.IsLength (sampleIn ℝ 2 0 false ⟨0, 0⟩ ⟨0, 0⟩).mLastBrushPoint
        ((sampleIn ℝ 2 0 false ⟨0, 0⟩ ⟨0, 0⟩).mLastBrushPoint.add (QPointF.smul
          (((i : ℝ) + 1) * brushStep (sampleIn ℝ 2 0 false ⟨0, 0⟩ ⟨0, 0⟩).properties.feather
            (dabWidth (sampleIn ℝ 2 0 false ⟨0, 0⟩ ⟨0, 0⟩) 1) / (4 * Real.sqrt 2))
          (QPointF.sub ⟨1, 1⟩ (sampleIn ℝ 2 0 false ⟨0, 0⟩ ⟨0, 0⟩).mLastBrushPoint)))
        (((i : ℝ) + 1) * brushStep (sampleIn ℝ 2 0 false ⟨0, 0⟩ ⟨0, 0⟩).properties.feather
          (dabWidth (sampleIn ℝ 2 0 false ⟨0, 0⟩ ⟨0, 0⟩) 1) / 4)) :=
  ⟨by norm_num [QLineF.IsLength, sample], by norm_num,
   (drawStroke_dab_positions (sample 2 0 false ⟨0, 0⟩ ⟨0, 0⟩) ⟨3, 4⟩ 1 5 (by norm_num)).1,
   Real.sqrt_pos.mpr (by norm_num), isLength_diagonal,
   fun i hi =>
    (((drawStroke_dab_positions (sampleIn ℝ 2 0 false ⟨0, 0⟩ ⟨0, 0⟩) ⟨1, 1⟩ 1 (Real.sqrt 2)
      (Real.sqrt_pos.mpr (by norm_num))).2.1 i hi).2 isLength_diagonal).1⟩

/-- C22 (counterexample): with spacing `S = 1`, on the segment from (0,0) to (1,0) of
length `D = 1` the first dab is at (1/4, 0), not at `a + (1*S/D)*(b - a) = (1, 0)`; and
on the segment from (0,0) to (1/5, 0) the only dab is at (1/4, 0), beyond `b`. -/
theorem drawStroke_dab_positions_counterexample :
    QLineF.IsLength (sample 2 0 false ⟨0, 0⟩ ⟨0, 0⟩).mLastBrushPoint ⟨1, 0⟩ 1 ∧
    brushStep (sample 2 0 false ⟨0, 0⟩ ⟨0, 0⟩).properties.feather
      (dabWidth (sample 2 0 false ⟨0, 0⟩ ⟨0, 0⟩) 1) = 1 ∧
    dabs (drawStroke (sample 2 0 false ⟨0, 0⟩ ⟨0, 0⟩) ⟨1, 0⟩ 1 1).2 =
      [⟨⟨1 / 4, 0⟩, 2, 0, 1⟩, ⟨⟨1 / 2, 0⟩, 2, 0, 1⟩, ⟨⟨3 / 4, 0⟩, 2, 0, 1⟩,
       ⟨⟨1, 0⟩, 2, 0, 1⟩] ∧
    (sample 2 0 false ⟨0, 0⟩ ⟨0, 0⟩).mLastBrushPoint.add
      (QPointF.smul (1 * 1 / 1)
        (QPointF.sub ⟨1, 0⟩ (sample 2 0 false ⟨0, 0⟩ ⟨0, 0⟩).mLastBrushPoint)) = ⟨1, 0⟩ ∧
    (dabs (drawStroke (sample 2 0 false ⟨0, 0⟩ ⟨0, 0⟩) ⟨1, 0⟩ 1 1).2).head? ≠
      some ⟨⟨1, 0⟩, 2, 0, 1⟩ ∧
    QLineF.IsLength (sample 2 0 false ⟨0, 0⟩ ⟨0, 0⟩).mLastBrushPoint ⟨1 / 5, 0⟩ (1 / 5) ∧
    dabs (drawStroke (sample 2 0 false ⟨0, 0⟩ ⟨0, 0⟩) ⟨1 / 5, 0⟩ 1 (1 / 5)).2 =
      [⟨⟨1 / 4, 0⟩, 2, 0, 1⟩] := by
  have hS : brushStep (sample 2 0 false ⟨0, 0⟩ ⟨0, 0⟩).properties.feather
      (dabWidth (sample 2 0 false ⟨0, 0⟩ ⟨0, 0⟩) 1) = 1 := by
    norm_num [brushStep, dabWidth, sample, qMax]
  have hn : stepCount (4 * 1) (1 : ℚ) = 4 :=
    stepCount_eq_of_bounds 4 4 (by norm_num) (by norm_num) (by norm_num) (by norm_num)
      (by norm_num) (by norm_num)
  have hn5 : stepCount (4 * (1 / 5)) (1 : ℚ) = 1 :=
    stepCount_eq_of_bounds 1 1 (by norm_num) (by norm_num) (by norm_num) (by norm_num)
      (by norm_num) (by norm_num)
  have e4 : Int.toNat 4 = 4 := rfl
  have e1 : Int.toNat 1 = 1 := rfl
  have r4 : List.range 4 = [0, 1, 2, 3] := rfl
  have r1 : List.range 1 = [0] := rfl
  have hd : dabs (drawStroke (sample 2 0 false ⟨0, 0⟩ ⟨0, 0⟩) ⟨1, 0⟩ 1 1).2 =
      [⟨⟨1 / 4, 0⟩, 2, 0, 1⟩, ⟨⟨1 / 2, 0⟩, 2, 0, 1⟩, ⟨⟨3 / 4, 0⟩, 2, 0, 1⟩,
       ⟨⟨1, 0⟩, 2, 0, 1⟩] := by
    rw [drawStroke_dabs, hS, hn, e4, r4]
    norm_num [dabPoint, sample, QPointF.add, QPointF.smul, QPointF.sub, QPointF.div,
      dabWidth, dabOpacity]
  have hd5 : dabs (drawStroke (sample 2 0 false ⟨0, 0⟩ ⟨0, 0⟩) ⟨1 / 5, 0⟩ 1 (1 / 5)).2 =
      [⟨⟨1 / 4, 0⟩, 2, 0, 1⟩] := by
    rw [drawStroke_dabs, hS, hn5, e1, r1]
    norm_num [dabPoint, sample, QPointF.add, QPointF.smul, QPointF.sub, QPointF.div,
      dabWidth, dabOpacity]
  refine ⟨by norm_num [QLineF.IsLength, sample], hS, hd, ?_, ?_,
    by norm_num [QLineF.IsLength, sample], hd5⟩
  · norm_num [sample, QPointF.add, QPointF.smul, QPointF.sub]
  · rw [hd]
    simp only [List.head?_cons]
    intro he
    have hx := congrArg (fun o => o.map (fun d => d.point.x)) he
    norm_num at hx

end BitmapEraserTool
end Pencil
